import Mathlib

/-!
Verification development for the BOT THOTLE storyboard/script generation
pipeline (`src/App.tsx`, `src/services/geminiService.ts`, and the
presentation player component).

The TypeScript sources are shallowly embedded as Lean functions.  External
generative-service calls are modelled by explicit outcome parameters
(an `Except String _` value per call), so every orchestration function is a
pure, executable Lean function of its inputs and of the outcomes of the
external calls it makes.
-/

namespace Thotle

/-! ## Data model

The script data types mirror the JSON schema in `src/services/geminiService.ts`
(`scriptSchema`) and the spec's data model section: a script is a title plus an
ordered list of scene elements; a scene element is a tagged variant of
`scene_heading`, `action`, `transition` and `dialogue_block`; a dialogue block
carries a character name and an ordered list of `parenthetical`/`dialogue`
parts.  (The repository's `types.ts` is not included under `src/`; these shapes
are reconstructed from the schema and from every use site in `App.tsx`.)
-/

inductive DPartType
  | parenthetical
  | dialogue
deriving DecidableEq

structure DPart where
  ptype : DPartType
  content : String
deriving DecidableEq

inductive SceneElement
  | scene_heading (content : String)
  | action (content : String)
  | transition (content : String)
  | dialogue_block (character : String) (elements : List DPart)
deriving DecidableEq

structure Script where
  source_file : Option String := none
  title : String
  scene_elements : List SceneElement
deriving DecidableEq

/-- `el.content || ''` on a scene element: dialogue blocks have no `content`
field, which JavaScript reads as `undefined` and `|| ''` turns into `""`. -/
def elementContentOrEmpty : SceneElement → String
  | .scene_heading c => c
  | .action c => c
  | .transition c => c
  | .dialogue_block _ _ => ""

/-- Whether a scene element is a `scene_heading` (`el.type === 'scene_heading'`). -/
def isSceneHeadingB : SceneElement → Bool
  | .scene_heading _ => true
  | _ => false

/-- Whether an element is an `action` with truthy content
(`el.type === 'action' && el.content`). -/
def isActionWithContent : SceneElement → Bool
  | .action c => c ≠ ""
  | _ => false

/-- `s.toUpperCase()`, character by character. -/
def jsToUpper (s : String) : String := String.mk (s.data.map Char.toUpper)

/-- `s.toLowerCase()`, character by character. -/
def jsToLower (s : String) : String := String.mk (s.data.map Char.toLower)

/-- Whether a character is trimmed by `s.trim()`. -/
def isTrimmedSpace (c : Char) : Bool :=
  c = ' ' ∨ c = '\t' ∨ c = '\n' ∨ c = '\r'

/-- `s.trim()`: strip leading and trailing whitespace. -/
def jsTrim (s : String) : String :=
  String.mk (((s.data.dropWhile isTrimmedSpace).reverse.dropWhile isTrimmedSpace).reverse)

/-! ## Dialogue associator (`getDialogueForScene`, `App.tsx` lines 22-44) -/

/-- The result record `{ character, dialogue, elementIndex }` returned by
`getDialogueForScene`. -/
structure DialogueMatch where
  character : String
  dialogue : String
  elementIndex : Nat
deriving DecidableEq

/-- `dBlock.elements.find(e => e.type === 'dialogue')?.content`: the content of
the first dialogue-typed part of a dialogue block, if any. -/
def findSpokenContent (elements : List DPart) : Option String :=
  (elements.find? (fun e => e.ptype = DPartType.dialogue)).map DPart.content

/-- One directional scan of `getDialogueForScene`, over a list of
(index, element) pairs in visit order: stop at the first `scene_heading`;
on a `dialogue_block`, return a match only when the first dialogue-typed part
exists and its content is truthy (`if (spoken)`), otherwise keep scanning. -/
def scanForDialogue : List (Nat × SceneElement) → Option DialogueMatch
  | [] => none
  | (j, el) :: rest =>
    match el with
    | .scene_heading _ => none
    | .dialogue_block ch elems =>
      match findSpokenContent elems with
      | some spoken =>
        if spoken = "" then scanForDialogue rest
        else some ⟨jsToUpper ch, spoken, j⟩
      | none => scanForDialogue rest
    | _ => scanForDialogue rest

/-- `getDialogueForScene(sceneIndex, script)`: scan forward from
`sceneIndex + 1`; if the forward scan finds nothing before a scene heading (or
the end), scan backward from `sceneIndex - 1` down to `0`. -/
def getDialogueForScene (sceneIndex : Nat) (script : Script) : Option DialogueMatch :=
  match scanForDialogue ((script.scene_elements.enum).drop (sceneIndex + 1)) with
  | some m => some m
  | none => scanForDialogue (((script.scene_elements.enum).take sceneIndex).reverse)

/-- The scan step exactly as the spec sentence for C4 words it: a
`dialogue_block` *containing a dialogue-typed part* matches, the returned text
being the content of its first dialogue part (empty or not). -/
def dialogueBlockHitClaimed (q : Nat × SceneElement) : Option DialogueMatch :=
  match q with
  | (j, .dialogue_block ch elems) =>
    if elems.any (fun e => e.ptype = DPartType.dialogue) then
      some ⟨jsToUpper ch, ((elems.find? (fun e => e.ptype = DPartType.dialogue)).map DPart.content).getD "", j⟩
    else none
  | _ => none

/-- The amended scan step: a `dialogue_block` matches only when its first
dialogue-typed part exists and has non-empty text. -/
def dialogueBlockHit (q : Nat × SceneElement) : Option DialogueMatch :=
  match q with
  | (j, .dialogue_block ch elems) =>
    match findSpokenContent elems with
    | some spoken => if spoken = "" then none else some ⟨jsToUpper ch, spoken, j⟩
    | none => none
  | _ => none

/-- Dialogue association as the claim C4 words it (forward scan truncated at
the first scene heading, first matching dialogue block wins, then the backward
scan symmetrically). -/
def getDialogueForSceneClaimed (sceneIndex : Nat) (script : Script) : Option DialogueMatch :=
  let fwd := (((script.scene_elements.enum).drop (sceneIndex + 1)).takeWhile
      (fun q => !isSceneHeadingB q.2)).findSome? dialogueBlockHitClaimed
  match fwd with
  | some m => some m
  | none =>
    ((((script.scene_elements.enum).take sceneIndex).reverse).takeWhile
      (fun q => !isSceneHeadingB q.2)).findSome? dialogueBlockHitClaimed

/-- Dialogue association, amended: identical to the claimed algorithm except
that a dialogue block only matches when its first dialogue-typed part has
non-empty text. -/
def getDialogueForSceneAmended (sceneIndex : Nat) (script : Script) : Option DialogueMatch :=
  let fwd := (((script.scene_elements.enum).drop (sceneIndex + 1)).takeWhile
      (fun q => !isSceneHeadingB q.2)).findSome? dialogueBlockHit
  match fwd with
  | some m => some m
  | none =>
    ((((script.scene_elements.enum).take sceneIndex).reverse).takeWhile
      (fun q => !isSceneHeadingB q.2)).findSome? dialogueBlockHit

/-! ## Edit-distance matcher (`levenshteinDistance`, `App.tsx` lines 56-79)

The source builds a `(bn+1) × (an+1)` dynamic-programming matrix row by row:
row `0` is `0, 1, …, an`, and entry `(j, i)` is
`min(matrix[j][i-1] + 1, matrix[j-1][i] + 1, matrix[j-1][i-1] + cost)` with
`cost = (a[i-1] === b[j-1] ? 0 : 1)`.  `levRowGo` computes the entries
`1 … an` of one row from the previous row (`diag`/`above`), the running
current-row entry (`left`) and the row's character of `b`; `levRows` iterates
over the characters of `b`; the result is the last entry of the last row. -/

def levRowGo (bc : Char) : List Char → List Nat → Nat → List Nat
  | [], _, _ => []
  | _ :: _, [], _ => []
  | ac :: as_, diag :: prevRest, left =>
    let above := prevRest.headD 0
    let cost := if ac = bc then 0 else 1
    let v := min (min (left + 1) (above + 1)) (diag + cost)
    v :: levRowGo bc as_ prevRest v

def levRows (aChars : List Char) : List Char → Nat → List Nat → List Nat
  | [], _, prev => prev
  | bc :: bs, j, prev => levRows aChars bs (j + 1) (j :: levRowGo bc aChars prev j)

/-- `levenshteinDistance(a, b)` from `App.tsx`: the early returns for an empty
argument, then the row-by-row dynamic program, returning `matrix[bn][an]`. -/
def levenshteinDistance (a b : String) : Nat :=
  let an := a.data.length
  let bn := b.data.length
  if an = 0 then bn
  else if bn = 0 then an
  else (levRows a.data b.data 1 (List.range (an + 1))).getLastD 0

/-- The textbook Levenshtein recurrence on lists, used as the reference
specification for the dynamic program. -/
def lev : List Char → List Char → Nat
  | [], ys => ys.length
  | xs, [] => xs.length
  | x :: xs, y :: ys =>
    min (min (lev xs (y :: ys) + 1) (lev (x :: xs) ys + 1))
      (lev xs ys + (if x = y then 0 else 1))
termination_by xs ys => xs.length + ys.length

/-- The reference values of one DP row suffix: for `as_ = a₁ :: a₂ :: …`, the
list `lev (a₁::xs) ys, lev (a₂::a₁::xs) ys, …` of distances of the successive
extensions of the (reversed) prefix `xs` against `ys`. -/
def accLevs (xs ys : List Char) : List Char → List Nat
  | [] => []
  | a :: rest => lev (a :: xs) ys :: accLevs (a :: xs) ys rest

/-- An edit alignment between two character lists: `Edits n a b` holds exactly
when `b` can be obtained from `a` by `n` single-character operations —
substitutions (`sub`), deletions (`del`) and insertions (`ins`) — with `keep`
marking an unedited character.  `{n | Edits n a b}` is therefore the set of
operation counts of edit sequences transforming `a` into `b`. -/
inductive Edits : Nat → List Char → List Char → Prop
  | nil : Edits 0 [] []
  | keep (c : Char) {n : Nat} {xs ys : List Char} :
      Edits n xs ys → Edits n (c :: xs) (c :: ys)
  | sub (c d : Char) {n : Nat} {xs ys : List Char} :
      Edits n xs ys → Edits (n + 1) (c :: xs) (d :: ys)
  | del (c : Char) {n : Nat} {xs ys : List Char} :
      Edits n xs ys → Edits (n + 1) (c :: xs) ys
  | ins (d : Char) {n : Nat} {xs ys : List Char} :
      Edits n xs ys → Edits (n + 1) xs (d :: ys)

/-! ## String utilities shared by the service layer and the resolver -/

/-- Whether `pat` matches at the head of `l`. -/
def listStartsWith : List Char → List Char → Bool
  | [], _ => true
  | _ :: _, [] => false
  | a :: as_, b :: bs => a = b && listStartsWith as_ bs

/-- Whether `needle` occurs as a contiguous segment of the list. -/
def infixCheck (needle : List Char) : List Char → Bool
  | [] => needle.isEmpty
  | h :: t => listStartsWith needle (h :: t) || infixCheck needle t

/-- JavaScript's `hay.includes(needle)`. -/
def strContains (hay needle : String) : Bool :=
  infixCheck needle.data hay.data

/-- `normalizeForMatch` (`App.tsx` line 394):
`name.toLowerCase().replace(/[^a-z0-9]/g, '')`. -/
def normalizeForMatch (name : String) : String :=
  String.mk ((jsToLower name).data.filter
    (fun c => ('a' ≤ c ∧ c ≤ 'z') ∨ ('0' ≤ c ∧ c ≤ '9')))

/-! ## Character reference resolver (`App.tsx` lines 408-431)

For one character name from a cohesive prompt, the source loops over
`Object.keys(allAvailableCharacterImages)` keeping the running best
`(bestMatchKey, minDistance)` pair under strict `<` (so the first-encountered
key wins ties), then accepts the best key only when
`minDistance / max(len(normalizedQuery), len(normalizedKey)) < 0.5`; with
natural numbers and a positive denominator this ratio test is exactly
`2 * minDistance < max(...)`.  An empty normalized query or an empty key set
short-circuits to no match (`continue`). -/

/-- One step of the running-minimum loop over candidate keys. -/
def resolveStep (nq : String) (acc : Option (String × Nat)) (key : String) :
    Option (String × Nat) :=
  let d := levenshteinDistance nq (normalizeForMatch key)
  match acc with
  | none => some (key, d)
  | some (bk, bd) => if d < bd then some (key, d) else some (bk, bd)

/-- The resolver from the source: returns the accepted best-matching key of
`keys` for the queried character name, or `none` when unresolved. -/
def resolveKey (charName : String) (keys : List String) : Option String :=
  let nq := normalizeForMatch charName
  if nq = "" ∨ keys = [] then none
  else
    match keys.foldl (resolveStep nq) none with
    | none => none
    | some (bk, bd) =>
      if 2 * bd < max nq.length (normalizeForMatch bk).length then some bk
      else none

/-- The resolver as the claim C6 words it: normalize, pick the candidate of
minimum edit distance with ties broken by the first-encountered candidate
(i.e. the first candidate whose distance is ≤ every candidate's distance),
accept it iff `distance / max(len(normalizedQuery), len(normalizedCandidate))`
is below one half, and short-circuit to unresolved for an empty candidate set
or an empty normalized query. -/
def resolveKeySpec (charName : String) (keys : List String) : Option String :=
  let nq := normalizeForMatch charName
  if nq = "" ∨ keys = [] then none
  else
    let dOf := fun k => levenshteinDistance nq (normalizeForMatch k)
    match keys.find? (fun k => keys.all (fun k2 => dOf k ≤ dOf k2)) with
    | none => none
    | some bk =>
      if 2 * dOf bk < max nq.length (normalizeForMatch bk).length then some bk
      else none

/-! ## HS3000 dialogue rewrite service (`geminiService.ts` lines 380-419) -/

/-- One entry of the `dialogueInputs` array built in `App.tsx` lines 467-481. -/
structure DialogueInput where
  character : String
  originalDialogue : String
  isDuplicate : Bool
deriving DecidableEq

/-- One rewritten dialogue line `{ character, dialogue }`. -/
structure HS3000Line where
  character : String
  dialogue : String
deriving DecidableEq

/-- JavaScript's `s.split(/[.!?]/)` on the character list: split at every
sentence terminator, the terminators not appearing in any piece. -/
def splitTerm : List Char → List (List Char)
  | [] => [[]]
  | c :: rest =>
    let r := splitTerm rest
    if c = '.' ∨ c = '!' ∨ c = '?' then [] :: r
    else
      match r with
      | h :: t => (c :: h) :: t
      | [] => [[c]]

/-- The local fallback of `generateHS3000Dialogue`:
`{ character, dialogue: i.originalDialogue.split(/[.!?]/)[0] + "." }`. -/
def fallbackLine (i : DialogueInput) : HS3000Line :=
  ⟨i.character, String.mk ((splitTerm i.originalDialogue.data).headD []) ++ "."⟩

/-- `generateHS3000Dialogue(inputs)`: the external call's outcome is passed in
as `raw`; a successful call returns the parsed lines, and any thrown error —
of whatever kind — is caught and replaced by the deterministic local fallback,
one line per input. -/
def generateHS3000DialogueModel (inputs : List DialogueInput)
    (raw : Except String (List HS3000Line)) : List HS3000Line :=
  match raw with
  | .ok lines => lines
  | .error _ => inputs.map fallbackLine

/-- Whether a character is not a sentence terminator. -/
def notTermChar (c : Char) : Bool := ¬(c = '.' ∨ c = '!' ∨ c = '?')

/-- The fallback text as the spec words it: the first sentence-terminated
segment of the original dialogue — the text before the first `.`, `!` or `?`,
re-terminated with a period. -/
def firstSentenceSegment (s : String) : String :=
  String.mk (s.data.takeWhile notTermChar) ++ "."

/-! ## Pipeline data structures (`App.tsx` lines 8-11 and `types.ts` shapes) -/

structure TextFile where
  name : String
  content : String
deriving DecidableEq

structure CharacterImage where
  fileName : String
  base64 : String
  mimeType : String
deriving DecidableEq

structure GeneratedCharacterPortrait where
  base64 : String
  mimeType : String
  prompt : String
deriving DecidableEq

structure GeneratedImage where
  sceneIndex : Nat
  imageUrl : String
  base64 : String
  prompt : String
deriving DecidableEq

structure StoryElements where
  characters : String
  story : String
  today : String
deriving DecidableEq

structure AnalyzedCharacter where
  name : String
  gender : String
  race : Option String := none
  voiceDescription : Option String := none
  otherDescriptors : Option String := none
deriving DecidableEq

/-- One entry of the cohesive-prompt list returned by
`generateCohesiveImagePrompts`. -/
structure CohesivePrompt where
  sceneIndex : Nat
  prompt : String
  characters : List String
deriving DecidableEq

/-- The return value of `generateImage`:
`{ imageBase64, finalPrompt, wasRewritten }`. -/
structure ImageGenResult where
  imageBase64 : Option String
  finalPrompt : String
  wasRewritten : Bool
deriving DecidableEq

/-- One value of the `allAvailableCharacterImages` record
(`{ name, base64, mimeType }`). -/
structure AvailImage where
  name : String
  base64 : String
  mimeType : String
deriving DecidableEq

/-! JavaScript plain objects used as string-keyed maps are modelled as
association lists in key-insertion order (`Object.keys`/`Object.entries`
iterate string keys in insertion order; assigning an existing key keeps its
position). -/

def recordGet {α : Type} (m : List (String × α)) (k : String) : Option α :=
  (m.find? (fun p => p.1 = k)).map Prod.snd

def recordSet {α : Type} (m : List (String × α)) (k : String) (v : α) :
    List (String × α) :=
  if (m.find? (fun p => p.1 = k)).isSome then
    m.map (fun p => if p.1 = k then (k, v) else p)
  else m ++ [(k, v)]

/-! ## Service layer (`geminiService.ts`)

Each exported service function performs one external generative call.  The
call's raw outcome (parsed payload, or the thrown error's message) is a
parameter; the Lean function models the error classification the source
performs around the call.  `PERMISSION_DENIED` / `API key not valid` errors
are rewritten to a fixed authentication-failure message. -/

def authFailureMessage : String :=
  "Authentication failed. Please ensure your API key is correct and has the necessary permissions. The server returned a PERMISSION_DENIED error."

def isAuthErrorMessage (m : String) : Bool :=
  strContains m "PERMISSION_DENIED" || strContains m "API key not valid"

def analyzeStoryInputsModel (raw : Except String StoryElements) :
    Except String StoryElements :=
  match raw with
  | .ok se => .ok se
  | .error msg =>
    .error (if isAuthErrorMessage msg then authFailureMessage
      else "Could not analyze uploaded files. The model may have returned an invalid response or the content was insufficient. Details: " ++ msg)

def generateStoryModel (raw : Except String Script) : Except String Script :=
  match raw with
  | .ok s =>
    .ok { s with source_file :=
      match s.source_file with
      | some v => if v = "" then some "gemini-3-pro-preview" else some v
      | none => some "gemini-3-pro-preview" }
  | .error msg =>
    .error (if isAuthErrorMessage msg then authFailureMessage
      else "Failed to generate script. Details: " ++ msg)

def analyzeCharacterDescriptionsModel (raw : Except String (List AnalyzedCharacter)) :
    Except String (List AnalyzedCharacter) :=
  match raw with
  | .ok cs => .ok cs
  | .error msg =>
    .error (if isAuthErrorMessage msg then authFailureMessage
      else "Could not analyze character descriptions. Details: " ++ msg)

def generateCohesiveImagePromptsModel (raw : Except String (List CohesivePrompt)) :
    Except String (List CohesivePrompt) :=
  match raw with
  | .ok ps => .ok ps
  | .error msg =>
    .error (if isAuthErrorMessage msg then authFailureMessage
      else "Failed to generate cohesive image prompts. Details: " ++ msg)

/-- The final prompt built by `generateImage`:
`` `Style: ${style || 'cinematic, photorealistic'}. ${prompt}` ``. -/
def mkImageFinalPrompt (style prompt : String) : String :=
  "Style: " ++ (if style = "" then "cinematic, photorealistic" else style) ++ ". " ++ prompt

/-- `generateImage`: the raw outcome is either the extracted
`(imageBase64, safetyBlocked)` pair of a response (a response with no
candidates is `(none, true)`), or the message of a thrown error.  A `SAFETY`
error is converted into a blocked-but-successful result; an authentication
error and any other error are rethrown with the source's messages. -/
def generateImageModel (finalPrompt : String)
    (raw : Except String (Option String × Bool)) : Except String ImageGenResult :=
  match raw with
  | .ok (b64, blocked) => .ok ⟨b64, finalPrompt, blocked⟩
  | .error msg =>
    if strContains msg "SAFETY" then .ok ⟨none, finalPrompt, true⟩
    else if isAuthErrorMessage msg then .error authFailureMessage
    else .error ("Failed to generate image. Details: " ++ msg)

/-! ## Character portrait stage (`App.tsx` lines 313-339)

One independent `generateImage` request per character that has no uploaded
image, each wrapped in its own try/catch: a failure (of any kind) is logged in
the report and the character is skipped.  The source launches the requests
concurrently and appends report chunks in completion order; the model fixes
list order, which is the determinization the spec prescribes for this
fan-out. -/

def portraitDescriptorString (c : AnalyzedCharacter) : String :=
  String.intercalate ", "
    (([c.race, some c.gender, c.voiceDescription, c.otherDescriptors].filterMap id).filter
      (fun s => s ≠ ""))

def portraitPrompt (c : AnalyzedCharacter) : String :=
  "Photorealistic, cinematic, full body portrait of a character named " ++ c.name ++
    ". Description: " ++ portraitDescriptorString c ++ "."

def portraitFailChunk (i : Nat) (name msg : String) : String :=
  "[PORTRAIT " ++ toString (i + 1) ++ "] Character: " ++ name ++
    " - GENERATION FAILED\n  - Error: " ++ msg ++ "\n\n"

def portraitOkChunk (i : Nat) (name : String) (r : ImageGenResult) : String :=
  "[PORTRAIT " ++ toString (i + 1) ++ "] Character: " ++ name ++
    "\n  - Prompt: \"" ++ r.finalPrompt ++ "\"\n  - Status: " ++
    (if r.imageBase64.isSome then "Success" else "Failed") ++ "\n\n"

def portraitStep (style : String) (gen : Nat → Except String (Option String × Bool))
    (acc : List (String × GeneratedCharacterPortrait) × List String)
    (p : Nat × AnalyzedCharacter) :
    List (String × GeneratedCharacterPortrait) × List String :=
  let (i, char) := p
  let fp := mkImageFinalPrompt style (portraitPrompt char)
  match generateImageModel fp (gen i) with
  | .error e => (acc.1, acc.2 ++ [portraitFailChunk i char.name e])
  | .ok r =>
    match r.imageBase64 with
    | some b =>
      (recordSet acc.1 char.name ⟨b, "image/png", r.finalPrompt⟩,
        acc.2 ++ [portraitOkChunk i char.name r])
    | none => (acc.1, acc.2 ++ [portraitOkChunk i char.name r])

def portraitStage (chars : List AnalyzedCharacter) (style : String)
    (gen : Nat → Except String (Option String × Bool)) :
    List (String × GeneratedCharacterPortrait) × List String :=
  chars.enum.foldl (portraitStep style gen) ([], [])

/-- `allAvailableCharacterImages` (`App.tsx` lines 341-348): uploaded images
first, then generated portraits, all under lowercased keys, later writes
overwriting earlier ones. -/
def buildAllAvailable (uploaded : List (String × CharacterImage))
    (portraits : List (String × GeneratedCharacterPortrait)) :
    List (String × AvailImage) :=
  let m := uploaded.foldl
    (fun m p => recordSet m (jsToLower p.1) ⟨p.1, p.2.base64, p.2.mimeType⟩) []
  portraits.foldl
    (fun m p => recordSet m (jsToLower p.1) ⟨p.1, p.2.base64, p.2.mimeType⟩) m

/-! ## Continuity chain driver (`App.tsx` lines 393-463)

A strictly sequential loop over the cohesive prompts.  `previousImageBase64`
starts absent and is updated only when a generation yields image bytes; every
`generateImage` request is issued with the value it holds at that moment (the
model records those values in `suppliedContinuityRefs`, one entry per issued
request).  A failed or imageless generation appends nothing to the output and
leaves the baton unchanged.  A prompt whose `sceneIndex` is out of range makes
`script.scene_elements[sceneIndex]` `undefined`, so reading `.content` inside
the `try` throws and the iteration lands in the per-image catch without
issuing a request. -/

structure SceneLoopState where
  previousImageBase64 : Option String := none
  finalGeneratedImages : List GeneratedImage := []
  reportChunks : List String := []
  suppliedContinuityRefs : List (Option String) := []
deriving DecidableEq

def typeErrorMessage : String :=
  "TypeError: Cannot read properties of undefined"

def imageFailChunk (i total sceneIndex : Nat) (msg : String) : String :=
  "[IMAGE " ++ toString (i + 1) ++ "/" ++ toString total ++ "] Scene Index: " ++
    toString sceneIndex ++ " - GENERATION FAILED\n  - Error: " ++ msg ++ "\n\n"

def imageOkChunk (i total sceneIndex : Nat) (actionContent promptText : String)
    (usedLog : List String) (prevRef : Option String) (r : ImageGenResult) : String :=
  "[IMAGE " ++ toString (i + 1) ++ "/" ++ toString total ++ "] Scene Index: " ++
    toString sceneIndex ++ "\n  - Source Action: \"" ++ actionContent ++
    "\"\n  - Cohesive Prompt: \"" ++ promptText ++
    "\"\n  - Character Images Used: " ++
    (if usedLog = [] then "None" else String.intercalate ", " usedLog) ++
    "\n  - Previous Scene Used for Continuity: " ++
    (if prevRef.isSome then "Yes" else "No") ++
    "\n  - Final Prompt Sent: \"" ++ r.finalPrompt ++
    "\"\n  - Was Rewritten For Safety: " ++ (if r.wasRewritten then "true" else "false") ++
    "\n  - Generation Status: " ++ (if r.imageBase64.isSome then "Success" else "Failed") ++
    "\n\n"

/-- The per-character resolution loop of one scene iteration: each prompt
character name resolved through `resolveKey` against the available reference
keys contributes the matched image (and a log line). -/
def resolveRefsForScene (charactersInPrompt : List String)
    (avail : List (String × AvailImage)) : List (String × AvailImage) :=
  charactersInPrompt.filterMap (fun charName =>
    (resolveKey charName (avail.map Prod.fst)).bind (fun bk =>
      (recordGet avail bk).map (fun img => (charName, img))))

def sceneStep (script : Script) (avail : List (String × AvailImage)) (style : String)
    (total : Nat) (gen : Nat → Except String (Option String × Bool)) (i : Nat)
    (st : SceneLoopState) (cp : CohesivePrompt) : SceneLoopState :=
  match script.scene_elements[cp.sceneIndex]? with
  | none =>
    { st with reportChunks := st.reportChunks ++ [imageFailChunk i total cp.sceneIndex typeErrorMessage] }
  | some actionElement =>
    let actionContent := elementContentOrEmpty actionElement
    let resolved := resolveRefsForScene cp.characters avail
    -- report text only: the source's log line also carries a
    -- `, dist: ...` suffix with the match's edit distance
    let usedLog := resolved.map (fun p => p.2.name ++ " (Match for: " ++ p.1 ++ ")")
    let finalPrompt := mkImageFinalPrompt style cp.prompt
    let st1 := { st with suppliedContinuityRefs := st.suppliedContinuityRefs ++ [st.previousImageBase64] }
    match generateImageModel finalPrompt (gen i) with
    | .error e =>
      { st1 with reportChunks := st1.reportChunks ++ [imageFailChunk i total cp.sceneIndex e] }
    | .ok r =>
      let chunk := imageOkChunk i total cp.sceneIndex actionContent cp.prompt usedLog st.previousImageBase64 r
      match r.imageBase64 with
      | some b64 =>
        { st1 with
          previousImageBase64 := some b64,
          finalGeneratedImages := st1.finalGeneratedImages ++
            [⟨cp.sceneIndex, "data:image/png;base64," ++ b64, b64, r.finalPrompt⟩],
          reportChunks := st1.reportChunks ++ [chunk] }
      | none => { st1 with reportChunks := st1.reportChunks ++ [chunk] }

def sceneLoopGo (script : Script) (avail : List (String × AvailImage)) (style : String)
    (total : Nat) (gen : Nat → Except String (Option String × Bool)) :
    Nat → SceneLoopState → List CohesivePrompt → SceneLoopState
  | _, st, [] => st
  | i, st, cp :: rest =>
    sceneLoopGo script avail style total gen (i + 1)
      (sceneStep script avail style total gen i st cp) rest

def sceneImageLoop (script : Script) (avail : List (String × AvailImage))
    (style : String) (prompts : List CohesivePrompt)
    (gen : Nat → Except String (Option String × Bool)) : SceneLoopState :=
  sceneLoopGo script avail style prompts.length gen 0 {} prompts

/-- The success image extracted from the i-th raw generation outcome: the
image bytes when the call returned them, `none` on a failed, blocked or
imageless call. -/
def succOf (raw : Except String (Option String × Bool)) : Option String :=
  match raw with
  | .ok (b64, _) => b64
  | .error _ => none

/-! ## Secondary dialogue processing (`App.tsx` lines 465-481) -/

def buildDialogueInputsGo (script : Script) :
    List GeneratedImage → List Nat → List DialogueInput
  | [], _ => []
  | img :: rest, seen =>
    match getDialogueForScene img.sceneIndex script with
    | some diag =>
      ⟨diag.character, diag.dialogue, seen.contains diag.elementIndex⟩ ::
        buildDialogueInputsGo script rest (seen.insert diag.elementIndex)
    | none => buildDialogueInputsGo script rest seen

/-- The `dialogueInputs` loop: walk the successfully generated images in
order, associate each to a dialogue, flag it as duplicate iff its element
index is already in the `seenDialogueIndices` set, and add the index to the
set in every case. -/
def buildDialogueInputs (images : List GeneratedImage) (script : Script) :
    List DialogueInput :=
  buildDialogueInputsGo script images []

/-- Duplicate classification as the claim C5 words it: an association is
duplicate iff its `sourceElementIndex` occurred among the previously processed
associations. -/
def markDuplicatesGo (prev : List DialogueMatch) :
    List DialogueMatch → List DialogueInput
  | [] => []
  | a :: rest =>
    ⟨a.character, a.dialogue, prev.any (fun p => p.elementIndex = a.elementIndex)⟩ ::
      markDuplicatesGo (prev ++ [a]) rest

def markDuplicates (assocs : List DialogueMatch) : List DialogueInput :=
  markDuplicatesGo [] assocs

/-! ## Pipeline orchestrator (`handleGenerate`, `App.tsx` lines 211-503)

The orchestrator is modelled as a pure function of the component inputs and
an environment of raw external-call outcomes.  The local `report` string is
modelled as the list of appended chunks.  Crucially, mirroring the source: the
`generationReport` state is cleared at the start of the run, set to the local
report only on the success path (line 490), and the catch handler appends its
terminal entry to the *state* value (line 497), which at that point is the
cleared empty report — not to the local accumulated report. -/

structure CompState where
  scriptData : Option Script := none
  generatedImages : List GeneratedImage := []
  portraits : List (String × GeneratedCharacterPortrait) := []
  hs3000Lines : List HS3000Line := []
  reportState : List String := []
  error : Option String := none
deriving DecidableEq

structure RunInputs where
  textFiles : List TextFile
  characterImages : List (String × CharacterImage)
  stylePrompt : String
  storyPrompt : String

/-- The raw outcomes of the external generative calls a run makes, in the
order the orchestrator issues them.  Per-item stages are indexed by item
position. -/
structure Env where
  now : String
  rawAnalyzeStory : Except String StoryElements
  rawStory : Except String Script
  rawAnalyzeChars : Except String (List AnalyzedCharacter)
  rawPortrait : Nat → Except String (Option String × Bool)
  rawCohesive : Except String (List CohesivePrompt)
  rawImage : Nat → Except String (Option String × Bool)
  rawHs3000 : Except String (List HS3000Line)

def reportHeader : String := "--- BOT THOTLE GENERATION REPORT ---\n\n"

def dateChunk (now : String) : String := "Generation Date: " ++ now ++ "\n\n"

def noInputsNote : String :=
  "NOTE: No inputs provided. Using a default story prompt to begin generation.\n\n"

def defaultStoryPrompt : String :=
  "A lone astronaut discovers a strange, glowing artifact on a desolate moon."

def srcFilesChunk (files : List TextFile) : String :=
  "--- SOURCE FILES ---\n" ++
    String.intercalate "\n" (files.map (fun f => " - " ++ f.name)) ++ "\n\n"

def srcFilesNoneChunk : String :=
  "--- SOURCE FILES ---\nNo context files provided. Story elements will be inferred from the prompt.\n\n"

def placeholderElement : String :=
  "To be determined by the writer based on the story prompt."

def styleFileChunk (content : String) : String :=
  "NOTE: Using style.txt for style prompt.\n---\n" ++ content ++ "\n---\n\n"

def stylePromptChunk (sp : String) : String :=
  "--- STYLE PROMPT ---\nStyle: \"" ++ sp ++ "\"\n\n"

def uploadedChunk (names : List String) : String :=
  "--- UPLOADED CHARACTERS ---\nThe following characters were provided via image upload and must be included in the story: " ++
    String.intercalate ", " names ++ "\n\n"

def storyAnalysisChunk (se : StoryElements) (finalStoryPrompt : String) : String :=
  "--- STORY ANALYSIS ---\nCharacters: " ++ se.characters ++ "\nCore Story: " ++
    se.story ++ "\nDaily Theme: " ++ se.today ++ "\nInspirational Event: " ++
    finalStoryPrompt ++ "\n\n"

def mkScriptPrompt (se : StoryElements) (uploadedNames : List String)
    (finalStoryPrompt : String) : String :=
  "You are a creative writer for a sci-fi comedy series. Your task is to write a new short movie script based on a series premise and a user-provided event.\n\n**Series Premise:**\n---\n**Characters:**\n" ++
    se.characters ++ "\n\n**Core Story:**\n" ++ se.story ++
    "\n\n**Daily Theme:**\n" ++ se.today ++ "\n---\n" ++
    (if uploadedNames ≠ [] then
      "\n**Mandatory Characters:**\nYou MUST include characters named: " ++
        String.intercalate ", " uploadedNames ++
        ". These characters have visual references provided by the user. Integrate them naturally into the story.\n---"
      else "") ++
    "\n\n**Inspirational Event (Provided by User):**\n---\n" ++ finalStoryPrompt ++
    "\n---\n\nWeave the essence of this user-provided event into your story. It should serve as the central conflict or comedic situation for the episode. How would the characters from your Series Premise (and the mandatory characters, if any) react to or cause a situation like this?\n\nThe final output must be a creative and engaging movie script. Return ONLY the JSON object conforming to the provided schema. Do not include any markdown formatting or any other text outside the JSON structure.\n"

def scriptPromptChunk (p : String) : String :=
  "--- SCRIPT GENERATION PROMPT ---\n" ++ p ++ "\n\n"

def scriptOkChunk : String := "--- SCRIPT GENERATED SUCCESSFULLY ---\n\n"

def charAnalysisHeaderChunk : String := "--- LLM CHARACTER ANALYSIS ---\n"

/-- The serialized analysis JSON is abbreviated to the analyzed names. -/
def charAnalysisResultChunk (chars : List AnalyzedCharacter) : String :=
  "LLM Analysis Result (JSON):\n" ++
    String.intercalate ", " (chars.map AnalyzedCharacter.name) ++ "\n\n"

def portraitHeaderChunk : String := "--- CHARACTER PORTRAIT GENERATION ---\n\n"

def sceneLogHeaderChunk : String := "--- SCENE ASSET GENERATION LOG ---\n\n"

def capNoteChunk (n : Nat) : String :=
  "NOTE: Found " ++ toString n ++
    " actions with content, but limiting image generation to the first 20 to manage processing time.\n\n"

def hs3000Chunk (lines : List HS3000Line) : String :=
  "--- HS3000 DIALOGUE GENERATED ---\n" ++
    String.intercalate "\n" (lines.map (fun l => l.character ++ ": \"" ++ l.dialogue ++ "\"")) ++
    "\n\n"

def failChunk (msg : String) : String :=
  "--- GENERATION FAILED ---\n\nError: " ++ msg ++ "\n"

/-- The catch handler of `handleGenerate`: set the error state and append the
terminal failure entry to the report *state* (which the run reset to empty and
never re-assigned before a throw), discarding the local report. -/
def failWith (st : CompState) (msg : String) : CompState :=
  { st with error := some msg, reportState := st.reportState ++ [failChunk msg] }

/-- `[...new Set(list)]`: deduplication preserving first occurrences. -/
def firstDedupGo (seen : List String) : List String → List String
  | [] => []
  | x :: rest =>
    if seen.contains x then firstDedupGo seen rest
    else x :: firstDedupGo (x :: seen) rest

def firstDedup (l : List String) : List String := firstDedupGo [] l

/-- `allCharDescriptionsForPrompts` (`App.tsx` lines 364-385), the character
description string handed to the cohesive-prompt call. -/
def allCharDescriptionsForPrompts (script : Script)
    (analyzedCharacters : List AnalyzedCharacter)
    (characterImages : List (String × CharacterImage))
    (uploadedNames : List String) : String :=
  let inDialogue := firstDedup (script.scene_elements.filterMap (fun el =>
    match el with
    | .dialogue_block ch _ => some (jsTrim (jsToUpper ch))
    | _ => none))
  let allKnown := firstDedup (inDialogue ++ uploadedNames.map (fun n => jsTrim (jsToUpper n)))
  String.intercalate "; " (allKnown.map (fun charNameUpper =>
    let charData := analyzedCharacters.find? (fun c => jsTrim (jsToUpper c.name) = charNameUpper)
    let description := match charData with
      | some cd =>
        " (" ++ String.intercalate ", "
          ((([cd.race, some cd.gender, cd.otherDescriptors].filterMap id).filter
            (fun s => s ≠ ""))) ++ ")"
      | none => ""
    let originalName :=
      match (characterImages.map Prod.fst).find? (fun k => jsTrim (jsToUpper k) = charNameUpper) with
      | some k => k
      | none =>
        match charData with
        | some cd => cd.name
        | none => charNameUpper
    let isMandatory := uploadedNames.any (fun n => jsTrim (jsToUpper n) = charNameUpper)
    originalName ++ description ++
      (if isMandatory then " [MANDATORY VISUAL REFERENCE PROVIDED]" else "")))

/-- `handleGenerate` as a pure function of the inputs and the external-call
outcomes.  Stage order, per-stage report chunks, fatal-vs-recoverable
classification, incremental state updates and the catch handler mirror
`App.tsx` lines 211-503. -/
def runGenerate (inp : RunInputs) (env : Env) : CompState :=
  let report0 := [reportHeader, dateChunk env.now]
  let noInputs := inp.textFiles = [] ∧ inp.storyPrompt = "" ∧ inp.characterImages = []
  let finalStoryPrompt := if noInputs then defaultStoryPrompt else inp.storyPrompt
  let report1 := if noInputs then report0 ++ [noInputsNote] else report0
  let storyStage : Except String StoryElements × List String :=
    if inp.textFiles = [] then
      (.ok ⟨placeholderElement, placeholderElement, placeholderElement⟩,
        report1 ++ [srcFilesNoneChunk])
    else
      (analyzeStoryInputsModel env.rawAnalyzeStory, report1 ++ [srcFilesChunk inp.textFiles])
  match storyStage.1 with
  | .error msg => failWith {} msg
  | .ok storyElements =>
    let report2 := storyStage.2
    let styleFile := inp.textFiles.find? (fun f => jsToLower f.name = "style.txt")
    let finalStylePrompt := match styleFile with
      | some f => f.content
      | none => inp.stylePrompt
    let report3 := report2 ++ (match styleFile with
      | some f => [styleFileChunk f.content]
      | none => if inp.stylePrompt ≠ "" then [stylePromptChunk inp.stylePrompt] else [])
    let uploadedCharacterNames := inp.characterImages.map Prod.fst
    let report4 := report3 ++
      (if uploadedCharacterNames ≠ [] then [uploadedChunk uploadedCharacterNames] else [])
    let report5 := report4 ++ [storyAnalysisChunk storyElements finalStoryPrompt]
    let finalPrompt := mkScriptPrompt storyElements uploadedCharacterNames finalStoryPrompt
    let report6 := report5 ++ [scriptPromptChunk finalPrompt]
    match generateStoryModel env.rawStory with
    | .error msg => failWith {} msg
    | .ok script =>
      let st1 : CompState := { scriptData := some script }
      let report7 := report6 ++ [scriptOkChunk]
      let charactersFile := inp.textFiles.find? (fun f => strContains (jsToLower f.name) "character")
      let _characterDescriptionSource := match charactersFile with
        | some f => f.content
        | none =>
          storyElements.characters ++ "\n" ++
            String.intercalate "\n" (script.scene_elements.map elementContentOrEmpty)
      let report8 := report7 ++ [charAnalysisHeaderChunk]
      match analyzeCharacterDescriptionsModel env.rawAnalyzeChars with
      | .error msg => failWith st1 msg
      | .ok analyzedCharacters =>
        let report9 := report8 ++ [charAnalysisResultChunk analyzedCharacters]
        let report10 := report9 ++ [portraitHeaderChunk]
        let charactersToGenerate := analyzedCharacters.filter
          (fun c => (recordGet inp.characterImages (jsTrim (jsToLower c.name))).isNone)
        let portraitOut := portraitStage charactersToGenerate finalStylePrompt env.rawPortrait
        let st2 := { st1 with portraits := portraitOut.1 }
        let report11 := report10 ++ portraitOut.2
        let allAvailable := buildAllAvailable inp.characterImages portraitOut.1
        let report12 := report11 ++ [sceneLogHeaderChunk]
        let scenesWithAction := script.scene_elements.enum.filter
          (fun p => isActionWithContent p.2)
        let _scenesToGenerate := scenesWithAction.take 20
        let report13 := report12 ++
          (if scenesWithAction.length > 20 then [capNoteChunk scenesWithAction.length] else [])
        let _allCharDescriptions := allCharDescriptionsForPrompts script analyzedCharacters
          inp.characterImages uploadedCharacterNames
        match generateCohesiveImagePromptsModel env.rawCohesive with
        | .error msg => failWith st2 msg
        | .ok cohesivePrompts =>
          let loopOut := sceneImageLoop script allAvailable finalStylePrompt cohesivePrompts env.rawImage
          let st3 := { st2 with generatedImages := loopOut.finalGeneratedImages }
          let report14 := report13 ++ loopOut.reportChunks
          let dialogueInputs := buildDialogueInputs loopOut.finalGeneratedImages script
          if dialogueInputs = [] then
            { st3 with reportState := report14 }
          else
            let lines := generateHS3000DialogueModel dialogueInputs env.rawHs3000
            { st3 with hs3000Lines := lines, reportState := report14 ++ [hs3000Chunk lines] }

/-! ## Presentation player (`PresentationPlayer`)

The component receives the generated items (images and audio entries — the
`GeneratedAudio` shape is reconstructed from its use sites: a `sceneIndex` and
an audio payload), pairs each with `script.scene_elements[item.sceneIndex]`
and sorts by ascending `sceneIndex`; playback then walks that list with an
incrementing index. -/

inductive PlayerItem
  | image (sceneIndex : Nat) (imageUrl : String)
  | audio (sceneIndex : Nat) (audioData : String)
deriving DecidableEq

def PlayerItem.sceneIndex : PlayerItem → Nat
  | .image i _ => i
  | .audio i _ => i

structure StoryboardItem where
  item : PlayerItem
  sceneElement : Option SceneElement
deriving DecidableEq

/-- The `storyboardItems` memo of `PresentationPlayer` (lines 37-44). -/
def storyboardItems (initialItems : List PlayerItem) (script : Script) :
    List StoryboardItem :=
  (initialItems.map (fun it =>
    ({ item := it, sceneElement := script.scene_elements[it.sceneIndex]? } : StoryboardItem))).mergeSort
    (fun a b => decide (a.item.sceneIndex ≤ b.item.sceneIndex))

/-! ## Specification helpers for the continuity chain -/

/-- The continuity baton updated by one external outcome: the new image bytes
on a successful generation, the old value otherwise. -/
def stepPrev (gen : Nat → Except String (Option String × Bool))
    (prev : Option String) (i : Nat) : Option String :=
  (succOf (gen i)).or prev

/-- The baton value after consuming the outcomes of requests
`i, i + 1, …, i + k - 1`, starting from `prev`. -/
def chainPrev (gen : Nat → Except String (Option String × Bool)) :
    Option String → Nat → Nat → Option String
  | prev, _, 0 => prev
  | prev, i, k + 1 => chainPrev gen (stepPrev gen prev i) (i + 1) k

/-! ## Dialogue associator: proofs -/

theorem scanForDialogue_eq (l : List (Nat × SceneElement)) :
    scanForDialogue l =
      (l.takeWhile (fun q => !isSceneHeadingB q.2)).findSome? dialogueBlockHit := by
  induction l with
  | nil => rfl
  | cons q rest ih =>
    obtain ⟨j, el⟩ := q
    cases el with
    | scene_heading c =>
      simp [scanForDialogue, isSceneHeadingB, List.takeWhile_cons]
    | action c =>
      simpa [scanForDialogue, isSceneHeadingB, List.takeWhile_cons,
        List.findSome?_cons, dialogueBlockHit] using ih
    | transition c =>
      simpa [scanForDialogue, isSceneHeadingB, List.takeWhile_cons,
        List.findSome?_cons, dialogueBlockHit] using ih
    | dialogue_block ch elems =>
      cases hfs : findSpokenContent elems with
      | none =>
        simpa [scanForDialogue, isSceneHeadingB, List.takeWhile_cons,
          List.findSome?_cons, dialogueBlockHit, hfs] using ih
      | some spoken =>
        by_cases hsp : spoken = ""
        · simpa [scanForDialogue, isSceneHeadingB, List.takeWhile_cons,
            List.findSome?_cons, dialogueBlockHit, hfs, hsp] using ih
        · simp [scanForDialogue, isSceneHeadingB, List.takeWhile_cons,
            List.findSome?_cons, dialogueBlockHit, hfs, hsp]

/-- C4, counterexample.  The claim's algorithm matches any dialogue block that
contains a dialogue-typed part, but the code requires the first dialogue part's
text to be truthy: on the script `[action@0, dialogue_block(A, dialogue "")@1]`
the claimed algorithm associates scene 0 to A's (empty) line at index 1 while
`getDialogueForScene` returns no match. -/
theorem claimC4_counterexample :
    getDialogueForSceneClaimed 0
        ⟨none, "t", [.action "a", .dialogue_block "A" [⟨.dialogue, ""⟩]]⟩ =
      some ⟨"A", "", 1⟩
    ∧ getDialogueForScene 0
        ⟨none, "t", [.action "a", .dialogue_block "A" [⟨.dialogue, ""⟩]]⟩ = none
    ∧ getDialogueForScene 0
        ⟨none, "t", [.action "a", .dialogue_block "A" [⟨.dialogue, ""⟩]]⟩ ≠
      getDialogueForSceneClaimed 0
        ⟨none, "t", [.action "a", .dialogue_block "A" [⟨.dialogue, ""⟩]]⟩ := by
  refine ⟨by decide, by decide, by decide⟩

/-- C4, amended: dialogue association scans forward from `sceneIndex + 1`,
stopping without a match at the first scene heading, returning immediately on
the first dialogue block *whose first dialogue-typed part has non-empty text*;
failing that it scans backward symmetrically from `sceneIndex - 1`; blocks
with no dialogue part, or whose first dialogue part is empty, are skipped.  On
the claim's example script `[action@0, dialogue_block(A)@1, scene_heading@2,
action@3]`, scene 0 associates to A's line at index 1 and scene 3 has no
match. -/
theorem claimC4_dialogue_association :
    (∀ (sceneIndex : Nat) (script : Script),
      getDialogueForScene sceneIndex script = getDialogueForSceneAmended sceneIndex script)
    ∧ getDialogueForScene 0
        ⟨none, "t", [.action "a", .dialogue_block "A" [⟨.dialogue, "Hello."⟩],
          .scene_heading "INT. LAB", .action "b"]⟩ =
      some ⟨"A", "Hello.", 1⟩
    ∧ getDialogueForScene 3
        ⟨none, "t", [.action "a", .dialogue_block "A" [⟨.dialogue, "Hello."⟩],
          .scene_heading "INT. LAB", .action "b"]⟩ = none := by
  refine ⟨?_, by decide, by decide⟩
  intro sceneIndex script
  unfold getDialogueForScene getDialogueForSceneAmended
  rw [scanForDialogue_eq, scanForDialogue_eq]

/-! ## Duplicate classification: proofs -/

theorem buildDialogueInputsGo_eq (script : Script) :
    ∀ (images : List GeneratedImage) (seen : List Nat) (prev : List DialogueMatch),
      (∀ n : Nat, seen.contains n = prev.any (fun p => p.elementIndex = n)) →
      buildDialogueInputsGo script images seen =
        markDuplicatesGo prev
          (images.filterMap (fun img => getDialogueForScene img.sceneIndex script)) := by
  intro images
  induction images with
  | nil => intro seen prev _; rfl
  | cons img rest ih =>
    intro seen prev hinv
    rw [List.filterMap_cons]
    cases hd : getDialogueForScene img.sceneIndex script with
    | none =>
      simp only [buildDialogueInputsGo, hd]
      exact ih seen prev hinv
    | some diag =>
      simp only [buildDialogueInputsGo, hd, markDuplicatesGo]
      refine congrArg₂ (· :: ·) ?_ ?_
      · exact congrArg (fun b => DialogueInput.mk diag.character diag.dialogue b)
          (hinv diag.elementIndex)
      · refine ih _ _ ?_
        intro n
        have h1 : (seen.insert diag.elementIndex).contains n
            = (decide (n = diag.elementIndex) || seen.contains n) := by
          rw [Bool.eq_iff_iff]
          simp [List.mem_insert_iff, List.contains_eq_any_beq, List.any_eq_true]
        have h2 : (decide (n = diag.elementIndex))
            = (decide (diag.elementIndex = n)) := by
          simp [eq_comm]
        rw [h1, h2, hinv n, List.any_append, Bool.or_comm]
        simp [List.any_cons]

/-- C5: dialogue associations are processed in the order of the successfully
generated scene images, and an association is flagged `isDuplicate` exactly
when its source element index already occurred among the previously processed
associations of the run (the index entering the consumed set on first
encounter): `buildDialogueInputs` coincides with marking, in order, each
association of the generated images whose source index occurs earlier in the
association sequence.  On a run whose images are scenes 0 and 5 and where both
associate to the block at element index 1, the first processed occurrence is
not a duplicate and the second is. -/
theorem claimC5_duplicate_flagging :
    (∀ (images : List GeneratedImage) (script : Script),
      buildDialogueInputs images script =
        markDuplicates
          (images.filterMap (fun img => getDialogueForScene img.sceneIndex script)))
    ∧ (buildDialogueInputs
        [⟨0, "u0", "b0", "p0"⟩, ⟨5, "u5", "b5", "p5"⟩]
        ⟨none, "t", [.action "a0", .dialogue_block "A" [⟨.dialogue, "Hi."⟩],
          .action "a2", .action "a3", .action "a4", .action "a5"]⟩).map
        DialogueInput.isDuplicate = [false, true] := by
  refine ⟨?_, by decide⟩
  intro images script
  exact buildDialogueInputsGo_eq script images [] [] (fun n => rfl)

/-! ## Dialogue-rewrite fallback: proofs -/

theorem splitTerm_ne_nil (l : List Char) : splitTerm l ≠ [] := by
  induction l with
  | nil => simp [splitTerm]
  | cons c rest ih =>
    simp only [splitTerm]
    by_cases hc : c = '.' ∨ c = '!' ∨ c = '?'
    · simp [hc]
    · cases h : splitTerm rest with
      | nil => exact absurd h ih
      | cons hd tl => simp [hc, h]

theorem splitTerm_headD (l : List Char) :
    (splitTerm l).headD [] = l.takeWhile notTermChar := by
  induction l with
  | nil => rfl
  | cons c rest ih =>
    by_cases hc : c = '.' ∨ c = '!' ∨ c = '?'
    · have hcb : notTermChar c = false := by simp [notTermChar, hc]
      simp [splitTerm, hc, List.takeWhile_cons, hcb]
    · have hcb : notTermChar c = true := by simp [notTermChar]; tauto
      cases h : splitTerm rest with
      | nil => exact absurd h (splitTerm_ne_nil rest)
      | cons hd tl =>
        rw [h] at ih
        simp only [splitTerm, if_neg hc, h, List.headD] at ih ⊢
        rw [List.takeWhile_cons, hcb]
        simpa using ih

/-- C8: the dialogue-rewrite stage is batch-recoverable — when the external
rewrite call fails (with any error), the deterministic local fallback yields
exactly one line per input, each line being the first sentence-terminated
segment of that input's original dialogue. -/
theorem claimC8_rewrite_fallback :
    ∀ (inputs : List DialogueInput) (msg : String),
      (generateHS3000DialogueModel inputs (Except.error msg)).length = inputs.length
      ∧ generateHS3000DialogueModel inputs (Except.error msg) =
          inputs.map (fun i =>
            ({ character := i.character,
               dialogue := firstSentenceSegment i.originalDialogue } : HS3000Line)) := by
  intro inputs msg
  refine ⟨by simp [generateHS3000DialogueModel], ?_⟩
  simp only [generateHS3000DialogueModel]
  refine List.map_congr_left ?_
  intro i _
  unfold fallbackLine firstSentenceSegment
  rw [splitTerm_headD]

/-! ## Presentation player: proofs -/

/-- C10: the player's computed `storyboardItems` sequence is a permutation of
the input items — each paired with `script.scene_elements[item.sceneIndex]` —
sorted in ascending `sceneIndex` order, so playback (which walks this list by
an incrementing index) visits items in ascending `sceneIndex` order no matter
the order in which the items were supplied. -/
theorem claimC10_player_ordering :
    ∀ (initialItems : List PlayerItem) (script : Script),
      (storyboardItems initialItems script).Perm
        (initialItems.map (fun it =>
          ({ item := it, sceneElement := script.scene_elements[it.sceneIndex]? } : StoryboardItem)))
      ∧ List.Sorted (fun a b : StoryboardItem => a.item.sceneIndex ≤ b.item.sceneIndex)
          (storyboardItems initialItems script) := by
  intro items script
  constructor
  · exact List.mergeSort_perm _ _
  · have htrans : ∀ (a b c : StoryboardItem),
        (decide (a.item.sceneIndex ≤ b.item.sceneIndex)) = true →
        (decide (b.item.sceneIndex ≤ c.item.sceneIndex)) = true →
        (decide (a.item.sceneIndex ≤ c.item.sceneIndex)) = true := by
      intro a b c hab hbc
      simp only [decide_eq_true_eq] at hab hbc ⊢
      omega
    have htotal : ∀ (a b : StoryboardItem),
        ((decide (a.item.sceneIndex ≤ b.item.sceneIndex)) ||
          (decide (b.item.sceneIndex ≤ a.item.sceneIndex))) = true := by
      intro a b
      rcases Nat.le_total a.item.sceneIndex b.item.sceneIndex with h | h <;> simp [h]
    have hp := List.sorted_mergeSort htrans htotal
      (items.map (fun it =>
        ({ item := it, sceneElement := script.scene_elements[it.sceneIndex]? } : StoryboardItem)))
    exact hp.imp (fun h => by simpa using h)

/-! ## Continuity chain: proofs -/

theorem sceneStep_continuity (script : Script) (avail : List (String × AvailImage))
    (style : String) (total : Nat) (gen : Nat → Except String (Option String × Bool))
    (i : Nat) (st : SceneLoopState) (cp : CohesivePrompt)
    (hv : cp.sceneIndex < script.scene_elements.length) :
    (sceneStep script avail style total gen i st cp).previousImageBase64
        = stepPrev gen st.previousImageBase64 i
    ∧ (sceneStep script avail style total gen i st cp).suppliedContinuityRefs
        = st.suppliedContinuityRefs ++ [st.previousImageBase64] := by
  obtain ⟨el, hsome⟩ : ∃ el, script.scene_elements[cp.sceneIndex]? = some el :=
    ⟨_, List.getElem?_eq_getElem hv⟩
  cases hgen : gen i with
  | error msg =>
    by_cases hsafety : strContains msg "SAFETY"
    · constructor <;>
        simp [sceneStep, hsome, hgen, generateImageModel, hsafety, stepPrev, succOf]
    · by_cases hauth : isAuthErrorMessage msg
      · constructor <;>
          simp [sceneStep, hsome, hgen, generateImageModel, hsafety, hauth, stepPrev, succOf]
      · constructor <;>
          simp [sceneStep, hsome, hgen, generateImageModel, hsafety, hauth, stepPrev, succOf]
  | ok pair =>
    obtain ⟨b64, blocked⟩ := pair
    cases b64 with
    | none =>
      constructor <;> simp [sceneStep, hsome, hgen, generateImageModel, stepPrev, succOf]
    | some b =>
      constructor <;> simp [sceneStep, hsome, hgen, generateImageModel, stepPrev, succOf]

theorem sceneLoopGo_continuity (script : Script) (avail : List (String × AvailImage))
    (style : String) (total : Nat) (gen : Nat → Except String (Option String × Bool)) :
    ∀ (ps : List CohesivePrompt) (i : Nat) (st : SceneLoopState),
      (∀ cp ∈ ps, cp.sceneIndex < script.scene_elements.length) →
      (sceneLoopGo script avail style total gen i st ps).previousImageBase64
          = chainPrev gen st.previousImageBase64 i ps.length
      ∧ (sceneLoopGo script avail style total gen i st ps).suppliedContinuityRefs
          = st.suppliedContinuityRefs ++
            (List.range ps.length).map (chainPrev gen st.previousImageBase64 i) := by
  intro ps
  induction ps with
  | nil => intro i st _; simp [sceneLoopGo, chainPrev]
  | cons cp rest ih =>
    intro i st hv
    have hcp := hv cp (List.mem_cons_self cp rest)
    have hstep := sceneStep_continuity script avail style total gen i st cp hcp
    have hrest := ih (i + 1) (sceneStep script avail style total gen i st cp)
      (fun q hq => hv q (List.mem_cons_of_mem _ hq))
    constructor
    · simp only [sceneLoopGo, List.length_cons]
      rw [hrest.1, hstep.1]
      rfl
    · simp only [sceneLoopGo, List.length_cons]
      rw [hrest.2, hstep.2, hstep.1]
      have hmap : List.map (chainPrev gen st.previousImageBase64 i)
            (List.range (rest.length + 1))
          = st.previousImageBase64 ::
            List.map (chainPrev gen (stepPrev gen st.previousImageBase64 i) (i + 1))
              (List.range rest.length) := by
        rw [List.range_succ_eq_map, List.map_cons, List.map_map]
        refine congrArg₂ List.cons rfl ?_
        exact List.map_congr_left (fun k _ => rfl)
      rw [hmap]
      simp [List.append_assoc]

theorem getLast?_filterMap_cons {α β : Type} (f : α → Option β) (a : α) (l : List α) :
    (((a :: l).filterMap f).getLast?) = ((l.filterMap f).getLast?).or (f a) := by
  rw [List.filterMap_cons]
  cases hfa : f a with
  | none => simp
  | some b =>
    cases hl : l.filterMap f with
    | nil => simp [hl]
    | cons x xs =>
      have hsome : (x :: xs).getLast?.isSome := by
        cases hxy : (x :: xs).getLast? with
        | none => simp [List.getLast?] at hxy
        | some y => simp
      obtain ⟨y, hy⟩ := Option.isSome_iff_exists.mp hsome
      simp [hl, hy]

theorem chainPrev_eq_getLast (gen : Nat → Except String (Option String × Bool)) :
    ∀ (k : Nat) (prev : Option String) (i : Nat),
      chainPrev gen prev i k =
        (((List.range k).filterMap (fun j => succOf (gen (i + j)))).getLast?).or prev := by
  intro k
  induction k with
  | zero => intro prev i; simp [chainPrev]
  | succ k ih =>
    intro prev i
    have h1 : chainPrev gen prev i (k + 1)
        = chainPrev gen (stepPrev gen prev i) (i + 1) k := rfl
    rw [h1, ih (stepPrev gen prev i) (i + 1), List.range_succ_eq_map,
      getLast?_filterMap_cons, List.filterMap_map]
    have hfun : ((fun j => succOf (gen (i + j))) ∘ Nat.succ)
        = (fun j => succOf (gen (i + 1 + j))) := by
      funext j
      simp only [Function.comp_apply]
      congr 2
      omega
    rw [hfun, stepPrev, Option.or_assoc]
    try simp

/-- C2: the continuity reference supplied with the i-th scene-image request is
the image of the most recent previously successful generation of the run (the
last success among requests `0 … i-1`), and absent when there is no prior
success; in particular a per-scene failure leaves the carried baton
unchanged. -/
theorem claimC2_continuity_chain :
    ∀ (script : Script) (avail : List (String × AvailImage)) (style : String)
      (prompts : List CohesivePrompt) (gen : Nat → Except String (Option String × Bool))
      (i : Nat),
      (∀ cp ∈ prompts, cp.sceneIndex < script.scene_elements.length) →
      i < prompts.length →
      (sceneImageLoop script avail style prompts gen).suppliedContinuityRefs[i]? =
        some (((List.range i).filterMap (fun j => succOf (gen j))).getLast?) := by
  intro script avail style prompts gen i hval hi
  have h := (sceneLoopGo_continuity script avail style prompts.length gen prompts 0 {} hval).2
  unfold sceneImageLoop
  rw [h]
  have h0 : ({} : SceneLoopState).suppliedContinuityRefs = [] := rfl
  have h0p : ({} : SceneLoopState).previousImageBase64 = none := rfl
  rw [h0, h0p, List.nil_append]
  simp [List.getElem?_map, List.getElem?_range hi, chainPrev_eq_getLast gen, Nat.zero_add]

/-- C2 witness: the claim's 3-scene run — scene 1's generation fails, so the
reference supplied with scene 2's request is scene 0's output image (not
absent, not scene 1's). -/
theorem claimC2_continuity_chain_witness :
    (sceneImageLoop ⟨none, "t", [.action "a0", .action "a1", .action "a2"]⟩ [] ""
        [⟨0, "p0", []⟩, ⟨1, "p1", []⟩, ⟨2, "p2", []⟩]
        (fun j => if j = 0 then .ok (some "img0", false)
          else if j = 1 then .error "boom" else .ok (some "img2", false))).suppliedContinuityRefs[2]? =
      some (some "img0") := by
  rw [claimC2_continuity_chain
    ⟨none, "t", [.action "a0", .action "a1", .action "a2"]⟩ [] ""
    [⟨0, "p0", []⟩, ⟨1, "p1", []⟩, ⟨2, "p2", []⟩]
    (fun j => if j = 0 then .ok (some "img0", false)
      else if j = 1 then .error "boom" else .ok (some "img2", false))
    2 (by decide) (by decide)]
  decide

/-! ## Scene-image ordering: proofs -/

theorem sceneStep_images (script : Script) (avail : List (String × AvailImage))
    (style : String) (total : Nat) (gen : Nat → Except String (Option String × Bool))
    (i : Nat) (st : SceneLoopState) (cp : CohesivePrompt) :
    ∃ e, (sceneStep script avail style total gen i st cp).finalGeneratedImages
        = st.finalGeneratedImages ++ e
      ∧ (e.map GeneratedImage.sceneIndex).Sublist [cp.sceneIndex] := by
  rcases hel : script.scene_elements[cp.sceneIndex]? with _ | el
  · exact ⟨[], by simp [sceneStep, hel], by simp⟩
  · rcases hgen : generateImageModel (mkImageFinalPrompt style cp.prompt) (gen i) with msg | r
    · exact ⟨[], by simp [sceneStep, hel, hgen], by simp⟩
    · rcases hb : r.imageBase64 with _ | b64
      · exact ⟨[], by simp [sceneStep, hel, hgen, hb], by simp⟩
      · exact ⟨[⟨cp.sceneIndex, "data:image/png;base64," ++ b64, b64, r.finalPrompt⟩],
          by simp [sceneStep, hel, hgen, hb], by simp⟩

theorem sceneLoopGo_images (script : Script) (avail : List (String × AvailImage))
    (style : String) (total : Nat) (gen : Nat → Except String (Option String × Bool)) :
    ∀ (ps : List CohesivePrompt) (i : Nat) (st : SceneLoopState),
      ∃ e, (sceneLoopGo script avail style total gen i st ps).finalGeneratedImages
          = st.finalGeneratedImages ++ e
        ∧ (e.map GeneratedImage.sceneIndex).Sublist (ps.map CohesivePrompt.sceneIndex) := by
  intro ps
  induction ps with
  | nil => intro i st; exact ⟨[], by simp [sceneLoopGo], by simp⟩
  | cons cp rest ih =>
    intro i st
    obtain ⟨e₁, he₁, hs₁⟩ := sceneStep_images script avail style total gen i st cp
    obtain ⟨e₂, he₂, hs₂⟩ := ih (i + 1) (sceneStep script avail style total gen i st cp)
    refine ⟨e₁ ++ e₂, ?_, ?_⟩
    · simp only [sceneLoopGo]
      rw [he₂, he₁, List.append_assoc]
    · rw [List.map_append, List.map_cons]
      have := List.Sublist.append hs₁ hs₂
      simpa using this

/-- C3 counterexample: the final image sequence follows the order in which the
cohesive-prompt stage returned the prompts, which nothing sorts — with prompts
for scenes 5 then 2, both generations succeeding, the output sceneIndex
sequence is `[5, 2]`, not strictly ascending. -/
theorem claimC3_counterexample :
    ((sceneImageLoop
        ⟨none, "t", [.action "a0", .action "a1", .action "a2", .action "a3",
          .action "a4", .action "a5"]⟩ [] ""
        [⟨5, "p", []⟩, ⟨2, "q", []⟩]
        (fun _ => .ok (some "b", false))).finalGeneratedImages.map
      GeneratedImage.sceneIndex) = [5, 2]
    ∧ ¬ List.Pairwise (· < ·)
        ((sceneImageLoop
            ⟨none, "t", [.action "a0", .action "a1", .action "a2", .action "a3",
              .action "a4", .action "a5"]⟩ [] ""
            [⟨5, "p", []⟩, ⟨2, "q", []⟩]
            (fun _ => .ok (some "b", false))).finalGeneratedImages.map
          GeneratedImage.sceneIndex) := by
  refine ⟨by decide, by decide⟩

/-- C3, amended: the output sequence of generated scene images lists, in
order, the scenes of the cohesive-prompt list whose generation succeeded (its
sceneIndex sequence is a sublist of the prompts' sceneIndex sequence), so the
final sequence is strictly ascending by sceneIndex whenever the
cohesive-prompt list is strictly ascending by sceneIndex — even though
generation is sequential and some scenes may be absent due to per-scene
failure. -/
theorem claimC3_output_ordering :
    ∀ (script : Script) (avail : List (String × AvailImage)) (style : String)
      (prompts : List CohesivePrompt) (gen : Nat → Except String (Option String × Bool)),
      ((sceneImageLoop script avail style prompts gen).finalGeneratedImages.map
          GeneratedImage.sceneIndex).Sublist (prompts.map CohesivePrompt.sceneIndex)
      ∧ (List.Pairwise (· < ·) (prompts.map CohesivePrompt.sceneIndex) →
          List.Pairwise (· < ·)
            ((sceneImageLoop script avail style prompts gen).finalGeneratedImages.map
              GeneratedImage.sceneIndex)) := by
  intro script avail style prompts gen
  obtain ⟨e, he, hs⟩ := sceneLoopGo_images script avail style prompts.length gen prompts 0 {}
  have himg : (sceneImageLoop script avail style prompts gen).finalGeneratedImages = e := by
    unfold sceneImageLoop
    rw [he]
    rfl
  constructor
  · rw [himg]; exact hs
  · intro hsorted
    rw [himg]
    exact List.Pairwise.sublist hs hsorted

/-- C3 witness: with an ascending prompt list (scenes 0, 2, 5) and a failure
at the middle prompt, the output sceneIndex sequence is still strictly
ascending. -/
theorem claimC3_output_ordering_witness :
    List.Pairwise (· < ·)
      (([⟨0, "p", []⟩, ⟨2, "q", []⟩, ⟨5, "r", []⟩] : List CohesivePrompt).map
        CohesivePrompt.sceneIndex)
    ∧ List.Pairwise (· < ·)
        ((sceneImageLoop
            ⟨none, "t", [.action "a0", .action "a1", .action "a2", .action "a3",
              .action "a4", .action "a5"]⟩ [] ""
            [⟨0, "p", []⟩, ⟨2, "q", []⟩, ⟨5, "r", []⟩]
            (fun j => if j = 1 then .error "boom" else .ok (some "b", false))).finalGeneratedImages.map
          GeneratedImage.sceneIndex) :=
  ⟨by decide,
    (claimC3_output_ordering
      ⟨none, "t", [.action "a0", .action "a1", .action "a2", .action "a3",
        .action "a4", .action "a5"]⟩ [] ""
      [⟨0, "p", []⟩, ⟨2, "q", []⟩, ⟨5, "r", []⟩]
      (fun j => if j = 1 then .error "boom" else .ok (some "b", false))).2 (by decide)⟩

/-! ## Orchestrator: fatal failure and authentication propagation -/

/-- C1 (code bug): on a run whose script-generation stage fails, the run does
yield zero generated scene images and zero portraits and a non-empty report
ending in a terminal failure entry — but the emitted report consists of the
terminal failure entry *alone*: the entries for the stages attempted before
the failure (report header, source-file note, story analysis, script prompt)
are absent, because the catch handler appends the failure entry to the cleared
report state instead of the locally accumulated report. -/
theorem claimC1_fatal_failure_report :
    (runGenerate ⟨[], [], "", "An event."⟩
        ⟨"2026-01-01T00:00:00.000Z", .error "unused", .error "boom", .ok [],
          fun _ => .error "unused", .ok [], fun _ => .ok (none, false), .ok []⟩).generatedImages = []
    ∧ (runGenerate ⟨[], [], "", "An event."⟩
        ⟨"2026-01-01T00:00:00.000Z", .error "unused", .error "boom", .ok [],
          fun _ => .error "unused", .ok [], fun _ => .ok (none, false), .ok []⟩).portraits = []
    ∧ (runGenerate ⟨[], [], "", "An event."⟩
        ⟨"2026-01-01T00:00:00.000Z", .error "unused", .error "boom", .ok [],
          fun _ => .error "unused", .ok [], fun _ => .ok (none, false), .ok []⟩).error =
        some "Failed to generate script. Details: boom"
    ∧ (runGenerate ⟨[], [], "", "An event."⟩
        ⟨"2026-01-01T00:00:00.000Z", .error "unused", .error "boom", .ok [],
          fun _ => .error "unused", .ok [], fun _ => .ok (none, false), .ok []⟩).reportState =
        ["--- GENERATION FAILED ---\n\nError: Failed to generate script. Details: boom\n"] := by
  refine ⟨by decide, by decide, by decide, by decide⟩

/-- C9 counterexample: an `AuthenticationFailure` in the per-item portrait
stage and in the dialogue-rewrite stage is *not* propagated to the caller as a
terminal error — on a run whose portrait call fails with `PERMISSION_DENIED`
and whose rewrite call fails with `API key not valid`, the run completes with
no error, no portraits, and the locally synthesized fallback dialogue
lines. -/
theorem claimC9_counterexample :
    (runGenerate ⟨[], [], "", "x"⟩
        ⟨"T", .error "u",
          .ok ⟨none, "t", [.action "Run.", .dialogue_block "A" [⟨.dialogue, "Hi there. More."⟩]]⟩,
          .ok [⟨"Zed", "male", none, none, none⟩],
          fun _ => .error "PERMISSION_DENIED while generating portrait",
          .ok [⟨0, "p", []⟩],
          fun _ => .ok (some "b", false),
          .error "API key not valid for rewrite"⟩).error = none
    ∧ (runGenerate ⟨[], [], "", "x"⟩
        ⟨"T", .error "u",
          .ok ⟨none, "t", [.action "Run.", .dialogue_block "A" [⟨.dialogue, "Hi there. More."⟩]]⟩,
          .ok [⟨"Zed", "male", none, none, none⟩],
          fun _ => .error "PERMISSION_DENIED while generating portrait",
          .ok [⟨0, "p", []⟩],
          fun _ => .ok (some "b", false),
          .error "API key not valid for rewrite"⟩).hs3000Lines = [⟨"A", "Hi there."⟩]
    ∧ (runGenerate ⟨[], [], "", "x"⟩
        ⟨"T", .error "u",
          .ok ⟨none, "t", [.action "Run.", .dialogue_block "A" [⟨.dialogue, "Hi there. More."⟩]]⟩,
          .ok [⟨"Zed", "male", none, none, none⟩],
          fun _ => .error "PERMISSION_DENIED while generating portrait",
          .ok [⟨0, "p", []⟩],
          fun _ => .ok (some "b", false),
          .error "API key not valid for rewrite"⟩).portraits = [] := by
  refine ⟨by decide, by decide, by decide⟩

/-- C9, amended: an `AuthenticationFailure` is propagated verbatim and
immediately as a terminal error from every fatal stage — story analysis,
script generation, character analysis and cohesive-prompt generation: an
authentication-classified raw failure at whichever of those stages the run
reaches surfaces to the caller exactly as the fixed authentication-failure
message; it is never retried anywhere (every raw outcome is consulted at most
once by construction); but in the per-item portrait and scene-image stages it
is caught and logged per item, and in the dialogue-rewrite stage the local
fallback absorbs it — a run whose four structurally required stages succeed
reports no terminal error whatever the portrait, scene-image and rewrite
outcomes. -/
theorem claimC9_auth_propagation :
    (∀ (inp : RunInputs) (env : Env) (m : String),
      isAuthErrorMessage m = true →
      inp.textFiles ≠ [] →
      env.rawAnalyzeStory = .error m →
      (runGenerate inp env).error = some authFailureMessage)
    ∧ (∀ (inp : RunInputs) (env : Env) (m : String),
        isAuthErrorMessage m = true →
        (inp.textFiles = [] ∨ (∃ se, env.rawAnalyzeStory = .ok se)) →
        env.rawStory = .error m →
        (runGenerate inp env).error = some authFailureMessage)
    ∧ (∀ (inp : RunInputs) (env : Env) (m : String) (script : Script),
        isAuthErrorMessage m = true →
        (inp.textFiles = [] ∨ (∃ se, env.rawAnalyzeStory = .ok se)) →
        env.rawStory = .ok script →
        env.rawAnalyzeChars = .error m →
        (runGenerate inp env).error = some authFailureMessage)
    ∧ (∀ (inp : RunInputs) (env : Env) (m : String) (script : Script)
        (chars : List AnalyzedCharacter),
        isAuthErrorMessage m = true →
        (inp.textFiles = [] ∨ (∃ se, env.rawAnalyzeStory = .ok se)) →
        env.rawStory = .ok script →
        env.rawAnalyzeChars = .ok chars →
        env.rawCohesive = .error m →
        (runGenerate inp env).error = some authFailureMessage)
    ∧ (∀ (inputs : List DialogueInput) (m : String),
        generateHS3000DialogueModel inputs (.error m) = inputs.map fallbackLine)
    ∧ (∀ (inp : RunInputs) (env : Env) (script : Script)
        (chars : List AnalyzedCharacter) (prompts : List CohesivePrompt),
        (inp.textFiles = [] ∨ (∃ se, env.rawAnalyzeStory = .ok se)) →
        env.rawStory = .ok script →
        env.rawAnalyzeChars = .ok chars →
        env.rawCohesive = .ok prompts →
        (runGenerate inp env).error = none) := by
  refine ⟨?_, ?_, ?_, ?_, ?_, ?_⟩
  · intro inp env m hm htf hsa
    simp only [runGenerate, htf, hsa, analyzeStoryInputsModel, hm, if_false,
      eq_self_iff_true, if_true]
    simp [failWith]
  · intro inp env m hm hreach hstory
    by_cases htf : inp.textFiles = []
    · simp only [runGenerate, htf, hstory, generateStoryModel, hm,
        eq_self_iff_true, if_true]
      simp [failWith]
    · rcases hreach with h | ⟨se, hse⟩
      · exact absurd h htf
      · simp only [runGenerate, htf, hse, analyzeStoryInputsModel, hstory,
          generateStoryModel, hm, if_false, eq_self_iff_true, if_true]
        simp [failWith]
  · intro inp env m script hm hreach hstory hchars
    by_cases htf : inp.textFiles = []
    · simp only [runGenerate, htf, hstory, hchars, generateStoryModel,
        analyzeCharacterDescriptionsModel, hm, eq_self_iff_true, if_true]
      simp [failWith]
    · rcases hreach with h | ⟨se, hse⟩
      · exact absurd h htf
      · simp only [runGenerate, htf, hse, analyzeStoryInputsModel, hstory, hchars,
          generateStoryModel, analyzeCharacterDescriptionsModel, hm, if_false,
          eq_self_iff_true, if_true]
        simp [failWith]
  · intro inp env m script chars hm hreach hstory hchars hcoh
    by_cases htf : inp.textFiles = []
    · simp only [runGenerate, htf, hstory, hchars, hcoh, generateStoryModel,
        analyzeCharacterDescriptionsModel, generateCohesiveImagePromptsModel, hm,
        eq_self_iff_true, if_true]
      simp [failWith]
    · rcases hreach with h | ⟨se, hse⟩
      · exact absurd h htf
      · simp only [runGenerate, htf, hse, analyzeStoryInputsModel, hstory, hchars,
          hcoh, generateStoryModel, analyzeCharacterDescriptionsModel,
          generateCohesiveImagePromptsModel, hm, if_false, eq_self_iff_true, if_true]
        simp [failWith]
  · intro inputs m
    rfl
  · intro inp env script chars prompts hfatal hstory hchars hcoh
    by_cases htf : inp.textFiles = []
    · simp only [runGenerate, htf, hstory, hchars, hcoh, generateStoryModel,
        analyzeCharacterDescriptionsModel, generateCohesiveImagePromptsModel,
        eq_self_iff_true, if_true]
      split <;> rfl
    · rcases hfatal with h | ⟨se, hse⟩
      · exact absurd h htf
      · simp only [runGenerate, htf, hse, hstory, hchars, hcoh, generateStoryModel,
          analyzeStoryInputsModel, analyzeCharacterDescriptionsModel,
          generateCohesiveImagePromptsModel, if_false, eq_self_iff_true, if_true]
        split <;> rfl

/-- C9 witness: the amended claim instantiated at each fatal stage — an
authentication failure at story analysis, at script generation, at character
analysis, and at cohesive-prompt generation is each terminal with the exact
authentication message; a run with authentication failures only in the
portrait and rewrite stages (all fatal stages succeeding) ends with no
terminal error; the rewrite stage's authentication failure yields the
fallback lines. -/
theorem claimC9_auth_propagation_witness :
    isAuthErrorMessage "PERMISSION_DENIED: nope" = true
    ∧ (runGenerate ⟨[⟨"notes.txt", "some notes"⟩], [], "", "x"⟩
        ⟨"T", .error "PERMISSION_DENIED: nope", .ok ⟨none, "t", []⟩, .ok [],
          fun _ => .error "u", .ok [], fun _ => .ok (none, false), .ok []⟩).error =
        some authFailureMessage
    ∧ (runGenerate ⟨[], [], "", "x"⟩
        ⟨"T", .error "u", .error "PERMISSION_DENIED: nope", .ok [],
          fun _ => .error "u", .ok [], fun _ => .ok (none, false), .ok []⟩).error =
        some authFailureMessage
    ∧ (runGenerate ⟨[], [], "", "x"⟩
        ⟨"T", .error "u", .ok ⟨none, "t", [.action "Run."]⟩,
          .error "API key not valid here",
          fun _ => .error "u", .ok [], fun _ => .ok (none, false), .ok []⟩).error =
        some authFailureMessage
    ∧ (runGenerate ⟨[], [], "", "x"⟩
        ⟨"T", .error "u", .ok ⟨none, "t", [.action "Run."]⟩, .ok [],
          fun _ => .error "u", .error "PERMISSION_DENIED now",
          fun _ => .ok (none, false), .ok []⟩).error =
        some authFailureMessage
    ∧ generateHS3000DialogueModel [⟨"A", "Hi there. More.", false⟩]
        (.error "API key not valid")
        = [⟨"A", "Hi there. More.", false⟩].map fallbackLine
    ∧ (runGenerate ⟨[], [], "", "x"⟩
        ⟨"T", .error "u", .ok ⟨none, "t", [.action "Run."]⟩,
          .ok [⟨"Zed", "male", none, none, none⟩],
          fun _ => .error "PERMISSION_DENIED while generating portrait",
          .ok [⟨0, "p", []⟩],
          fun _ => .ok (some "b", false),
          .error "API key not valid for rewrite"⟩).error = none := by
  refine ⟨by decide, ?_, ?_, ?_, ?_, ?_, ?_⟩
  · exact claimC9_auth_propagation.1 ⟨[⟨"notes.txt", "some notes"⟩], [], "", "x"⟩
      ⟨"T", .error "PERMISSION_DENIED: nope", .ok ⟨none, "t", []⟩, .ok [],
        fun _ => .error "u", .ok [], fun _ => .ok (none, false), .ok []⟩
      "PERMISSION_DENIED: nope" (by decide) (by decide) rfl
  · exact claimC9_auth_propagation.2.1 ⟨[], [], "", "x"⟩
      ⟨"T", .error "u", .error "PERMISSION_DENIED: nope", .ok [],
        fun _ => .error "u", .ok [], fun _ => .ok (none, false), .ok []⟩
      "PERMISSION_DENIED: nope" (by decide) (Or.inl rfl) rfl
  · exact claimC9_auth_propagation.2.2.1 ⟨[], [], "", "x"⟩
      ⟨"T", .error "u", .ok ⟨none, "t", [.action "Run."]⟩,
        .error "API key not valid here",
        fun _ => .error "u", .ok [], fun _ => .ok (none, false), .ok []⟩
      "API key not valid here" ⟨none, "t", [.action "Run."]⟩
      (by decide) (Or.inl rfl) rfl rfl
  · exact claimC9_auth_propagation.2.2.2.1 ⟨[], [], "", "x"⟩
      ⟨"T", .error "u", .ok ⟨none, "t", [.action "Run."]⟩, .ok [],
        fun _ => .error "u", .error "PERMISSION_DENIED now",
        fun _ => .ok (none, false), .ok []⟩
      "PERMISSION_DENIED now" ⟨none, "t", [.action "Run."]⟩ []
      (by decide) (Or.inl rfl) rfl rfl rfl
  · exact claimC9_auth_propagation.2.2.2.2.1 [⟨"A", "Hi there. More.", false⟩]
      "API key not valid"
  · exact claimC9_auth_propagation.2.2.2.2.2 ⟨[], [], "", "x"⟩
      ⟨"T", .error "u", .ok ⟨none, "t", [.action "Run."]⟩,
        .ok [⟨"Zed", "male", none, none, none⟩],
        fun _ => .error "PERMISSION_DENIED while generating portrait",
        .ok [⟨0, "p", []⟩],
        fun _ => .ok (some "b", false),
        .error "API key not valid for rewrite"⟩
      ⟨none, "t", [.action "Run."]⟩ [⟨"Zed", "male", none, none, none⟩] [⟨0, "p", []⟩]
      (Or.inl rfl) rfl rfl rfl

/-! ## Character reference resolver: proofs -/

theorem resolveFold_characterization (nq : String) :
    ∀ (keys : List String) (b₀ : String),
      ∃ k₁ pre suf,
        keys.foldl (resolveStep nq)
            (some (b₀, levenshteinDistance nq (normalizeForMatch b₀)))
          = some (k₁, levenshteinDistance nq (normalizeForMatch k₁))
        ∧ b₀ :: keys = pre ++ k₁ :: suf
        ∧ (∀ k ∈ b₀ :: keys,
            levenshteinDistance nq (normalizeForMatch k₁) ≤
              levenshteinDistance nq (normalizeForMatch k))
        ∧ (∀ k ∈ pre,
            levenshteinDistance nq (normalizeForMatch k₁) <
              levenshteinDistance nq (normalizeForMatch k)) := by
  intro keys
  induction keys with
  | nil =>
    intro b₀
    refine ⟨b₀, [], [], rfl, rfl, ?_, by simp⟩
    intro k hk
    rw [List.mem_singleton] at hk
    rw [hk]
  | cons k rest ih =>
    intro b₀
    by_cases hlt : levenshteinDistance nq (normalizeForMatch k) <
        levenshteinDistance nq (normalizeForMatch b₀)
    · obtain ⟨k₁, pre', suf', hfold, hdecomp, hmin, hstrict⟩ := ih k
      have hstep : resolveStep nq
          (some (b₀, levenshteinDistance nq (normalizeForMatch b₀))) k
          = some (k, levenshteinDistance nq (normalizeForMatch k)) := by
        simp [resolveStep, hlt]
      have hk₁k : levenshteinDistance nq (normalizeForMatch k₁) ≤
          levenshteinDistance nq (normalizeForMatch k) :=
        hmin k (List.mem_cons_self k rest)
      refine ⟨k₁, b₀ :: pre', suf', ?_, ?_, ?_, ?_⟩
      · rw [List.foldl_cons, hstep, hfold]
      · rw [List.cons_append, ← hdecomp]
      · intro q hq
        rcases List.mem_cons.mp hq with hq | hq
        · subst hq; omega
        · exact hmin q hq
      · intro q hq
        rcases List.mem_cons.mp hq with hq | hq
        · subst hq; omega
        · exact hstrict q hq
    · obtain ⟨k₁, pre', suf', hfold, hdecomp, hmin, hstrict⟩ := ih b₀
      have hstep : resolveStep nq
          (some (b₀, levenshteinDistance nq (normalizeForMatch b₀))) k
          = some (b₀, levenshteinDistance nq (normalizeForMatch b₀)) := by
        simp [resolveStep, hlt]
      have hk₁b : levenshteinDistance nq (normalizeForMatch k₁) ≤
          levenshteinDistance nq (normalizeForMatch b₀) :=
        hmin b₀ (List.mem_cons_self b₀ rest)
      cases pre' with
      | nil =>
        simp only [List.nil_append, List.cons.injEq] at hdecomp
        obtain ⟨hbk, hsuf⟩ := hdecomp
        refine ⟨k₁, [], k :: rest, ?_, by rw [List.nil_append, ← hbk], ?_, by simp⟩
        · rw [List.foldl_cons, hstep, hfold]
        · intro q hq
          rcases List.mem_cons.mp hq with hq | hq
          · subst hq; exact hk₁b
          · rcases List.mem_cons.mp hq with hq | hq
            · subst hq; omega
            · exact hmin q (List.mem_cons_of_mem _ hq)
      | cons p pre'' =>
        simp only [List.cons_append, List.cons.injEq] at hdecomp
        obtain ⟨hp, hrest⟩ := hdecomp
        subst hp
        have hstrictb : levenshteinDistance nq (normalizeForMatch k₁) <
            levenshteinDistance nq (normalizeForMatch b₀) :=
          hstrict b₀ (List.mem_cons_self b₀ pre'')
        refine ⟨k₁, b₀ :: k :: pre'', suf', ?_, ?_, ?_, ?_⟩
        · rw [List.foldl_cons, hstep, hfold]
        · rw [hrest]
          simp
        · intro q hq
          rcases List.mem_cons.mp hq with hq | hq
          · subst hq; exact hk₁b
          · rcases List.mem_cons.mp hq with hq | hq
            · subst hq; omega
            · exact hmin q (List.mem_cons_of_mem _ hq)
        · intro q hq
          rcases List.mem_cons.mp hq with hq | hq
          · subst hq; exact hstrictb
          · rcases List.mem_cons.mp hq with hq | hq
            · subst hq; omega
            · exact hstrict q (List.mem_cons_of_mem _ hq)

theorem find?_first_min (d : String → Nat) (pre suf : List String) (k₁ : String)
    (hmin : ∀ k ∈ pre ++ k₁ :: suf, d k₁ ≤ d k)
    (hstrict : ∀ k ∈ pre, d k₁ < d k) :
    (pre ++ k₁ :: suf).find?
        (fun k => (pre ++ k₁ :: suf).all (fun k2 => d k ≤ d k2)) = some k₁ := by
  have hpre : pre.find?
      (fun k => (pre ++ k₁ :: suf).all (fun k2 => d k ≤ d k2)) = none := by
    rw [List.find?_eq_none]
    intro x hx hp
    have hall := List.all_eq_true.mp hp
    have hk₁mem : k₁ ∈ pre ++ k₁ :: suf :=
      List.mem_append_right _ (List.mem_cons_self _ _)
    have hxk : d x ≤ d k₁ := by simpa using hall k₁ hk₁mem
    exact absurd hxk (not_le.mpr (hstrict x hx))
  have hk₁ : ((pre ++ k₁ :: suf).all (fun k2 => d k₁ ≤ d k2)) = true := by
    rw [List.all_eq_true]
    intro k2 hk2
    simpa using hmin k2 hk2
  rw [List.find?_append, hpre, List.find?_cons, hk₁]
  rfl

/-- C6: the resolver normalizes the query and every candidate key identically
(lowercase, strip non-alphanumerics), selects the candidate of minimum edit
distance to the normalized query with ties broken by the first-encountered
candidate (equivalently: the first candidate whose distance is ≤ every
candidate's), accepts the best match iff
`distance / max(len(normalizedQuery), len(normalizedCandidate)) < 0.5`
(encoded exactly as `2·distance < max`, which is equivalent over the
nonnegative integers with positive denominator), and short-circuits to
unresolved on an empty candidate set or an empty normalized query.  With
candidates `jane`/`john`, query `Jane` resolves to `jane` and query `Xyzzy`
is unresolved. -/
theorem claimC6_resolver :
    (∀ (charName : String) (keys : List String),
      resolveKey charName keys = resolveKeySpec charName keys)
    ∧ resolveKey "Jane" ["jane", "john"] = some "jane"
    ∧ resolveKey "Xyzzy" ["jane", "john"] = none := by
  refine ⟨?_, by decide, by decide⟩
  intro charName keys
  unfold resolveKey resolveKeySpec
  by_cases h0 : normalizeForMatch charName = "" ∨ keys = []
  · simp [h0]
  · obtain ⟨hnq, hkeys⟩ := not_or.mp h0
    rw [if_neg h0, if_neg h0]
    cases keys with
    | nil => exact absurd rfl hkeys
    | cons k rest =>
      have hstep0 : (k :: rest).foldl (resolveStep (normalizeForMatch charName)) none
          = rest.foldl (resolveStep (normalizeForMatch charName))
              (some (k, levenshteinDistance (normalizeForMatch charName) (normalizeForMatch k))) := by
        rw [List.foldl_cons]
        rfl
      obtain ⟨k₁, pre, suf, hfold, hdecomp, hmin, hstrict⟩ :=
        resolveFold_characterization (normalizeForMatch charName) rest k
      rw [hstep0, hfold]
      rw [hdecomp] at hmin
      have hfind := find?_first_min
        (fun kk => levenshteinDistance (normalizeForMatch charName) (normalizeForMatch kk))
        pre suf k₁ hmin hstrict
      rw [← hdecomp] at hfind
      simp only [hfind]

/-! ## Edit distance: the recurrence and the edit-operation semantics -/

theorem lev_nil_left (ys : List Char) : lev [] ys = ys.length := by
  cases ys <;> simp [lev]

theorem lev_nil_right (xs : List Char) : lev xs [] = xs.length := by
  cases xs <;> simp [lev]

theorem lev_cons_cons (x y : Char) (xs ys : List Char) :
    lev (x :: xs) (y :: ys) =
      min (min (lev xs (y :: ys) + 1) (lev (x :: xs) ys + 1))
        (lev xs ys + (if x = y then 0 else 1)) := by
  simp [lev]

theorem edits_refl (xs : List Char) : Edits 0 xs xs := by
  induction xs with
  | nil => exact .nil
  | cons c rest ih => exact .keep c ih

theorem edits_del_all (xs : List Char) : Edits xs.length xs [] := by
  induction xs with
  | nil => exact .nil
  | cons c rest ih => exact .del c ih

theorem edits_ins_all (ys : List Char) : Edits ys.length [] ys := by
  induction ys with
  | nil => exact .nil
  | cons c rest ih => exact .ins c ih

/-- Achievability: `lev a b` edit operations suffice to transform `a` into
`b`. -/
theorem lev_edits : ∀ (n : Nat) (xs ys : List Char),
    xs.length + ys.length ≤ n → Edits (lev xs ys) xs ys := by
  intro n
  induction n with
  | zero =>
    intro xs ys hn
    have hxs : xs = [] := List.length_eq_zero.mp (by omega)
    have hys : ys = [] := List.length_eq_zero.mp (by omega)
    subst hxs; subst hys
    have h0 : lev [] [] = 0 := lev_nil_left []
    rw [h0]
    exact .nil
  | succ n ihn =>
    intro xs ys hn
    cases xs with
    | nil =>
      rw [lev_nil_left]
      exact edits_ins_all ys
    | cons x xs' =>
      cases ys with
      | nil =>
        rw [lev_nil_right]
        exact edits_del_all (x :: xs')
      | cons y ys' =>
        rw [lev_cons_cons]
        have hdel : Edits (lev xs' (y :: ys')) xs' (y :: ys') := by
          refine ihn xs' (y :: ys') ?_
          simp only [List.length_cons] at hn ⊢
          omega
        have hins : Edits (lev (x :: xs') ys') (x :: xs') ys' := by
          refine ihn (x :: xs') ys' ?_
          simp only [List.length_cons] at hn ⊢
          omega
        have hsub : Edits (lev xs' ys') xs' ys' := by
          refine ihn xs' ys' ?_
          simp only [List.length_cons] at hn ⊢
          omega
        rcases min_cases (min (lev xs' (y :: ys') + 1) (lev (x :: xs') ys' + 1))
            (lev xs' ys' + (if x = y then 0 else 1)) with ⟨h, _⟩ | ⟨h, _⟩
        · rw [h]
          rcases min_cases (lev xs' (y :: ys') + 1) (lev (x :: xs') ys' + 1) with
            ⟨h2, _⟩ | ⟨h2, _⟩
          · rw [h2]
            exact .del x hdel
          · rw [h2]
            exact .ins y hins
        · rw [h]
          by_cases hxy : x = y
          · subst hxy
            simp only [if_pos rfl, Nat.add_zero]
            exact .keep x hsub
          · simp only [if_neg hxy]
            exact .sub x y hsub

/-- Minimality: no edit sequence transforming `a` into `b` uses fewer than
`lev a b` operations. -/
theorem lev_le_of_edits : ∀ {n : Nat} {xs ys : List Char},
    Edits n xs ys → lev xs ys ≤ n := by
  intro n xs ys h
  induction h with
  | nil => simp [lev_nil_left]
  | keep c h ih =>
    rw [lev_cons_cons]
    refine le_trans (min_le_right _ _) ?_
    simp only [eq_self_iff_true, if_true]
    omega
  | sub c d h ih =>
    rw [lev_cons_cons]
    refine le_trans (min_le_right _ _) ?_
    by_cases hcd : c = d <;> simp [hcd] <;> omega
  | del c h ih =>
    rename_i n' xs' ys'
    cases ys' with
    | nil =>
      rw [lev_nil_right]
      rw [lev_nil_right] at ih
      simp only [List.length_cons]
      omega
    | cons y ys'' =>
      rw [lev_cons_cons]
      refine le_trans (le_trans (min_le_left _ _) (min_le_left _ _)) ?_
      omega
  | ins d h ih =>
    rename_i n' xs' ys'
    cases xs' with
    | nil =>
      rw [lev_nil_left]
      rw [lev_nil_left] at ih
      simp only [List.length_cons]
      omega
    | cons x xs'' =>
      rw [lev_cons_cons]
      refine le_trans (le_trans (min_le_left _ _) (min_le_right _ _)) ?_
      omega

theorem edits_symm : ∀ {n : Nat} {xs ys : List Char},
    Edits n xs ys → Edits n ys xs := by
  intro n xs ys h
  induction h with
  | nil => exact .nil
  | keep c _ ih => exact .keep c ih
  | sub c d _ ih => exact .sub d c ih
  | del c _ ih => exact .ins c ih
  | ins d _ ih => exact .del d ih

/-- Composition of edit sequences: `a → b` in `m` operations and `b → c` in
`n` operations compose into `a → c` in at most `m + n` operations. -/
theorem edits_comp : ∀ (N : Nat) (a b c : List Char) (m n : Nat),
    a.length + b.length + c.length ≤ N →
    Edits m a b → Edits n b c → ∃ k, k ≤ m + n ∧ Edits k a c := by
  intro N
  induction N with
  | zero =>
    intro a b c m n hN h1 h2
    have ha : a = [] := List.length_eq_zero.mp (by omega)
    have hc : c = [] := List.length_eq_zero.mp (by omega)
    subst ha; subst hc
    exact ⟨0, by omega, .nil⟩
  | succ N ihN =>
    intro a b c m n hN h1 h2
    cases h2 with
    | nil => exact ⟨m, by omega, h1⟩
    | ins d h2' =>
      obtain ⟨k, hk, he⟩ := ihN a b _ m _
        (by simp only [List.length_cons] at hN ⊢; omega) h1 h2'
      exact ⟨k + 1, by omega, .ins d he⟩
    | keep ch h2' =>
      rename_i b' c'
      cases h1 with
      | keep _ h1' =>
        rename_i a'
        obtain ⟨k, hk, he⟩ := ihN _ _ _ _ _
          (by simp only [List.length_cons] at hN ⊢; omega) h1' h2'
        exact ⟨k, by omega, .keep ch he⟩
      | sub x _ h1' =>
        rename_i m' a'
        obtain ⟨k, hk, he⟩ := ihN _ _ _ _ _
          (by simp only [List.length_cons] at hN ⊢; omega) h1' h2'
        exact ⟨k + 1, by omega, .sub x ch he⟩
      | del x h1' =>
        rename_i m' a'
        obtain ⟨k, hk, he⟩ := ihN _ _ _ _ _
          (by simp only [List.length_cons] at hN ⊢; omega) h1' (Edits.keep ch h2')
        exact ⟨k + 1, by omega, .del x he⟩
      | ins _ h1' =>
        rename_i m'
        obtain ⟨k, hk, he⟩ := ihN _ _ _ _ _
          (by simp only [List.length_cons] at hN ⊢; omega) h1' h2'
        exact ⟨k + 1, by omega, .ins ch he⟩
    | sub ch dh h2' =>
      rename_i n' b' c'
      cases h1 with
      | keep _ h1' =>
        obtain ⟨k, hk, he⟩ := ihN _ _ _ _ _
          (by simp only [List.length_cons] at hN ⊢; omega) h1' h2'
        exact ⟨k + 1, by omega, .sub ch dh he⟩
      | sub x _ h1' =>
        obtain ⟨k, hk, he⟩ := ihN _ _ _ _ _
          (by simp only [List.length_cons] at hN ⊢; omega) h1' h2'
        exact ⟨k + 1, by omega, .sub x dh he⟩
      | del x h1' =>
        obtain ⟨k, hk, he⟩ := ihN _ _ _ _ _
          (by simp only [List.length_cons] at hN ⊢; omega) h1' (Edits.sub ch dh h2')
        exact ⟨k + 1, by omega, .del x he⟩
      | ins _ h1' =>
        obtain ⟨k, hk, he⟩ := ihN _ _ _ _ _
          (by simp only [List.length_cons] at hN ⊢; omega) h1' h2'
        exact ⟨k + 1, by omega, .ins dh he⟩
    | del ch h2' =>
      rename_i n' b'
      cases h1 with
      | keep _ h1' =>
        obtain ⟨k, hk, he⟩ := ihN _ _ _ _ _
          (by simp only [List.length_cons] at hN ⊢; omega) h1' h2'
        exact ⟨k + 1, by omega, .del ch he⟩
      | sub x _ h1' =>
        obtain ⟨k, hk, he⟩ := ihN _ _ _ _ _
          (by simp only [List.length_cons] at hN ⊢; omega) h1' h2'
        exact ⟨k + 1, by omega, .del x he⟩
      | del x h1' =>
        obtain ⟨k, hk, he⟩ := ihN _ _ _ _ _
          (by simp only [List.length_cons] at hN ⊢; omega) h1' (Edits.del ch h2')
        exact ⟨k + 1, by omega, .del x he⟩
      | ins _ h1' =>
        obtain ⟨k, hk, he⟩ := ihN _ _ _ _ _
          (by simp only [List.length_cons] at hN ⊢; omega) h1' h2'
        exact ⟨k, by omega, he⟩

theorem edits_append : ∀ {m n : Nat} {xs ys xs' ys' : List Char},
    Edits m xs ys → Edits n xs' ys' → Edits (m + n) (xs ++ xs') (ys ++ ys') := by
  intro m n xs ys xs' ys' h1 h2
  induction h1 with
  | nil => simpa using h2
  | keep c _ ih => exact .keep c ih
  | sub c d _ ih =>
    rename_i m' _ _ _
    have : m' + 1 + n = (m' + n) + 1 := by omega
    rw [this]
    exact .sub c d ih
  | del c _ ih =>
    rename_i m' _ _ _
    have : m' + 1 + n = (m' + n) + 1 := by omega
    rw [this]
    exact .del c ih
  | ins d _ ih =>
    rename_i m' _ _ _
    have : m' + 1 + n = (m' + n) + 1 := by omega
    rw [this]
    exact .ins d ih

theorem edits_reverse : ∀ {n : Nat} {xs ys : List Char},
    Edits n xs ys → Edits n xs.reverse ys.reverse := by
  intro n xs ys h
  induction h with
  | nil => exact .nil
  | keep c _ ih =>
    rw [List.reverse_cons, List.reverse_cons]
    simpa using edits_append ih (Edits.keep c Edits.nil)
  | sub c d _ ih =>
    rw [List.reverse_cons, List.reverse_cons]
    exact edits_append ih (Edits.sub c d Edits.nil)
  | del c _ ih =>
    rw [List.reverse_cons]
    simpa using edits_append ih (Edits.del c Edits.nil)
  | ins d _ ih =>
    rw [List.reverse_cons]
    simpa using edits_append ih (Edits.ins d Edits.nil)

theorem lev_reverse (xs ys : List Char) :
    lev xs.reverse ys.reverse = lev xs ys := by
  refine le_antisymm ?_ ?_
  · exact lev_le_of_edits (edits_reverse (lev_edits (xs.length + ys.length) xs ys le_rfl))
  · have h := lev_le_of_edits (edits_reverse
      (lev_edits (xs.reverse.length + ys.reverse.length) xs.reverse ys.reverse le_rfl))
    simpa using h

/-! ## Edit distance: correctness of the dynamic program -/

theorem levRowGo_spec (bc : Char) (ys : List Char) :
    ∀ (as_ : List Char) (xs : List Char),
      levRowGo bc as_ (lev xs ys :: accLevs xs ys as_) (lev xs (bc :: ys))
        = accLevs xs (bc :: ys) as_ := by
  intro as_
  induction as_ with
  | nil => intro xs; simp [levRowGo, accLevs]
  | cons a rest ih =>
    intro xs
    have hacc : accLevs xs ys (a :: rest)
        = lev (a :: xs) ys :: accLevs (a :: xs) ys rest := rfl
    rw [hacc]
    have hv : min (min (lev xs (bc :: ys) + 1) (lev (a :: xs) ys + 1))
        (lev xs ys + (if a = bc then 0 else 1)) = lev (a :: xs) (bc :: ys) :=
      (lev_cons_cons a bc xs ys).symm
    show (min (min (lev xs (bc :: ys) + 1)
          ((lev (a :: xs) ys :: accLevs (a :: xs) ys rest).headD 0 + 1))
        (lev xs ys + (if a = bc then 0 else 1))) ::
        levRowGo bc rest (lev (a :: xs) ys :: accLevs (a :: xs) ys rest)
          (min (min (lev xs (bc :: ys) + 1)
            ((lev (a :: xs) ys :: accLevs (a :: xs) ys rest).headD 0 + 1))
          (lev xs ys + (if a = bc then 0 else 1)))
      = accLevs xs (bc :: ys) (a :: rest)
    rw [List.headD_cons, hv]
    have hrhs : accLevs xs (bc :: ys) (a :: rest)
        = lev (a :: xs) (bc :: ys) :: accLevs (a :: xs) (bc :: ys) rest := rfl
    rw [hrhs, ih (a :: xs)]

theorem levRows_spec (aChars : List Char) :
    ∀ (bs ys : List Char),
      levRows aChars bs (ys.length + 1) (lev [] ys :: accLevs [] ys aChars)
        = lev [] (bs.reverse ++ ys) :: accLevs [] (bs.reverse ++ ys) aChars := by
  intro bs
  induction bs with
  | nil => intro ys; simp [levRows]
  | cons bc bs' ih =>
    intro ys
    have hrow : levRows aChars (bc :: bs') (ys.length + 1)
          (lev [] ys :: accLevs [] ys aChars)
        = levRows aChars bs' (ys.length + 1 + 1)
          ((ys.length + 1) :: levRowGo bc aChars (lev [] ys :: accLevs [] ys aChars)
            (ys.length + 1)) := rfl
    have hlen : ys.length + 1 = lev [] (bc :: ys) := by
      rw [lev_nil_left, List.length_cons]
    rw [hrow]
    rw [show ((ys.length + 1) :: levRowGo bc aChars
          (lev [] ys :: accLevs [] ys aChars) (ys.length + 1))
        = (lev [] (bc :: ys) :: levRowGo bc aChars
          (lev [] ys :: accLevs [] ys aChars) (lev [] (bc :: ys))) from by rw [← hlen]]
    rw [levRowGo_spec bc ys aChars]
    have hlen2 : ys.length + 1 + 1 = (bc :: ys).length + 1 := by simp
    rw [hlen2, ih (bc :: ys)]
    have happ : bs'.reverse ++ (bc :: ys) = (bc :: bs').reverse ++ ys := by
      rw [List.reverse_cons, List.append_assoc, List.singleton_append]
    rw [happ]

theorem accLevs_getLastD (ys : List Char) :
    ∀ (as_ xs : List Char),
      (accLevs xs ys as_).getLastD (lev xs ys) = lev (as_.reverse ++ xs) ys := by
  intro as_
  induction as_ with
  | nil => intro xs; simp [accLevs]
  | cons a rest ih =>
    intro xs
    have h1 : accLevs xs ys (a :: rest)
        = lev (a :: xs) ys :: accLevs (a :: xs) ys rest := rfl
    rw [h1, List.getLastD_cons, ih (a :: xs)]
    have happ : rest.reverse ++ (a :: xs) = (a :: rest).reverse ++ xs := by
      rw [List.reverse_cons, List.append_assoc, List.singleton_append]
    rw [happ]

theorem accLevs_nil_eq_range :
    ∀ (as_ xs : List Char),
      lev xs [] :: accLevs xs [] as_
        = (List.range (as_.length + 1)).map (fun i => xs.length + i) := by
  intro as_
  induction as_ with
  | nil =>
    intro xs
    rw [show List.range ([] : List Char).length.succ = [0] from rfl]
    simp [accLevs, lev_nil_right]
  | cons a rest ih =>
    intro xs
    have h1 : accLevs xs [] (a :: rest)
        = lev (a :: xs) [] :: accLevs (a :: xs) [] rest := rfl
    have hr : (List.range (rest.length + 1 + 1)).map (fun i => xs.length + i)
        = xs.length ::
          (List.range (rest.length + 1)).map (fun i => xs.length + 1 + i) := by
      rw [List.range_succ_eq_map, List.map_cons, List.map_map]
      refine congrArg₂ List.cons (by omega) ?_
      refine List.map_congr_left ?_
      intro i _
      simp only [Function.comp_apply]
      omega
    simp only [List.length_cons]
    rw [h1, ih (a :: xs), hr]
    refine congrArg₂ List.cons ?_ ?_
    · rw [lev_nil_right]
    · refine List.map_congr_left ?_
      intro i _
      simp only [List.length_cons]

theorem levenshteinDistance_eq_lev (a b : String) :
    levenshteinDistance a b = lev a.data b.data := by
  by_cases ha : a.data.length = 0
  · have ha' : a.data = [] := List.length_eq_zero.mp ha
    simp [levenshteinDistance, ha, ha', lev_nil_left]
  · have haL : a.length ≠ 0 := ha
    by_cases hb : b.data.length = 0
    · have hb' : b.data = [] := List.length_eq_zero.mp hb
      simp [levenshteinDistance, ha, hb, hb', haL, lev_nil_right]
    · have hbL : b.length ≠ 0 := hb
      have hmain : levenshteinDistance a b
          = (levRows a.data b.data 1 (List.range (a.data.length + 1))).getLastD 0 := by
        simp [levenshteinDistance, ha, hb, haL, hbL]
      have hrow0 : List.range (a.data.length + 1)
          = lev [] [] :: accLevs [] [] a.data := by
        rw [accLevs_nil_eq_range a.data []]
        simp
      have h1 : levRows a.data b.data 1 (lev [] [] :: accLevs [] [] a.data)
          = lev [] (b.data.reverse ++ []) :: accLevs [] (b.data.reverse ++ []) a.data := by
        have h := levRows_spec a.data b.data []
        simpa using h
      rw [hmain, hrow0, h1, List.getLastD_cons, accLevs_getLastD]
      simp only [List.append_nil]
      exact lev_reverse a.data b.data

/-- C7: `levenshteinDistance a b` is the minimum number of single-character
insertions, deletions and substitutions transforming `a` into `b` (the least
element of the set of operation counts of edit sequences `Edits n a.data
b.data`); in particular it is symmetric, zero on equal strings, satisfies the
triangle inequality, and `levenshteinDistance "kitten" "sitting" = 3`. -/
theorem claimC7_levenshtein :
    (∀ a b : String, IsLeast {n : Nat | Edits n a.data b.data} (levenshteinDistance a b))
    ∧ (∀ a b : String, levenshteinDistance a b = levenshteinDistance b a)
    ∧ (∀ a : String, levenshteinDistance a a = 0)
    ∧ (∀ a b c : String,
        levenshteinDistance a c ≤ levenshteinDistance a b + levenshteinDistance b c)
    ∧ levenshteinDistance "kitten" "sitting" = 3 := by
  refine ⟨?_, ?_, ?_, ?_, by decide⟩
  · intro a b
    rw [levenshteinDistance_eq_lev]
    exact ⟨lev_edits (a.data.length + b.data.length) a.data b.data le_rfl,
      fun n hn => lev_le_of_edits hn⟩
  · intro a b
    rw [levenshteinDistance_eq_lev, levenshteinDistance_eq_lev]
    exact le_antisymm
      (lev_le_of_edits (edits_symm (lev_edits (b.data.length + a.data.length) b.data a.data le_rfl)))
      (lev_le_of_edits (edits_symm (lev_edits (a.data.length + b.data.length) a.data b.data le_rfl)))
  · intro a
    rw [levenshteinDistance_eq_lev]
    exact Nat.le_zero.mp (lev_le_of_edits (edits_refl a.data))
  · intro a b c
    rw [levenshteinDistance_eq_lev, levenshteinDistance_eq_lev, levenshteinDistance_eq_lev]
    obtain ⟨k, hk, he⟩ := edits_comp
      (a.data.length + b.data.length + c.data.length) a.data b.data c.data
      (lev a.data b.data) (lev b.data c.data) le_rfl
      (lev_edits (a.data.length + b.data.length) a.data b.data le_rfl)
      (lev_edits (b.data.length + c.data.length) b.data c.data le_rfl)
    exact le_trans (lev_le_of_edits he) hk

end Thotle

